import Mathlib

set_option maxRecDepth 20000

/-!
Verification of the slot-filling dialog core of the mainagent/Backend
repository (dental flow in app.py, hair flow in hair.py, text
normalization and Swedish date/time parsing in utils_cleanup.py).

The Python code is embedded shallowly: strings are `List Char` under a
`String` wrapper, Python `re` patterns are hand-compiled to executable
scanners with the same leftmost / greedy / backtracking behaviour,
dictionaries keep their insertion order as association lists, and
external collaborators (the GPT transcript repairer, the BankID portal,
the booking portal, the hair ADAPTER, difflib, randomness and the
clock) are oracle parameters threaded through an environment record.
-/

/-! ## Python character and string primitives -/

/-- Python `\s` for the character repertoire that occurs in the sources
(ASCII whitespace).  All strings manipulated by the code are ASCII plus
Latin-1 letters, so this matches Python's Unicode definition there. -/
def pyIsSpace (c : Char) : Bool :=
  c = ' ' || c = '\t' || c = '\n' || c = '\x0b' || c = '\x0c' || c = '\r'

/-- Python `\w` (Unicode word character) restricted to ASCII plus
Latin-1: ASCII alphanumerics, underscore, and the Latin-1 letters
(0xC0–0xFF except the multiplication and division signs, plus
ª, µ, º). -/
def pyIsWord (c : Char) : Bool :=
  ('a' ≤ c && c ≤ 'z') || ('A' ≤ c && c ≤ 'Z') || ('0' ≤ c && c ≤ '9') || c = '_'
  || (0xC0 ≤ c.toNat && c.toNat ≤ 0xFF && c.toNat ≠ 0xD7 && c.toNat ≠ 0xF7)
  || c.toNat = 0xAA || c.toNat = 0xB5 || c.toNat = 0xBA

/-- Python `str.lower` on one character, for ASCII and Latin-1
(À–Þ except ×). -/
def pyLower (c : Char) : Char :=
  if 'A' ≤ c && c ≤ 'Z' then Char.ofNat (c.toNat + 32)
  else if 0xC0 ≤ c.toNat && c.toNat ≤ 0xDE && c.toNat ≠ 0xD7 then Char.ofNat (c.toNat + 32)
  else c

/-- Python `str.upper` on one character, for ASCII and Latin-1
(à–þ except ÷; ß and ÿ, which have no Latin-1 uppercase, are left
alone — they do not occur in the embedded data). -/
def pyUpper (c : Char) : Char :=
  if 'a' ≤ c && c ≤ 'z' then Char.ofNat (c.toNat - 32)
  else if 0xE0 ≤ c.toNat && c.toNat ≤ 0xFE && c.toNat ≠ 0xF7 && c.toNat ≠ 0xDF + 32 then
    Char.ofNat (c.toNat - 32)
  else c

def pyIsDigit (c : Char) : Bool := '0' ≤ c && c ≤ '9'

def digitVal (c : Char) : Nat := c.toNat - '0'.toNat

/-- Python `str.strip()` (strip whitespace from both ends). -/
def pyStripWs (s : List Char) : List Char :=
  ((s.dropWhile pyIsSpace).reverse.dropWhile pyIsSpace).reverse

/-- Python `str.strip(chars)`. -/
def pyStripChars (set : List Char) (s : List Char) : List Char :=
  let mem := fun c => set.contains c
  ((s.dropWhile mem).reverse.dropWhile mem).reverse

/-- Python `str.lower()`. -/
def pyLowerStr (s : List Char) : List Char := s.map pyLower

/-- `re.sub(r"\s+", " ", s)`: collapse every whitespace run to one space. -/
def squeezeWsGo : List Char → Bool → List Char
  | [], _ => []
  | c :: rest, prevSp =>
    if pyIsSpace c then
      if prevSp then squeezeWsGo rest true else ' ' :: squeezeWsGo rest true
    else c :: squeezeWsGo rest false

def squeezeWs (s : List Char) : List Char := squeezeWsGo s false

/-- Python `s.split(" ")` (single-space separator; keeps empty pieces,
`"".split(" ") == [""]`). -/
def pySplitSpace : List Char → List (List Char)
  | [] => [[]]
  | c :: rest =>
    let r := pySplitSpace rest
    if c = ' ' then [] :: r
    else
      match r with
      | h :: t => (c :: h) :: t
      | [] => [[c]]

/-- `" ".join(pieces)`. -/
def joinSpace (ps : List (List Char)) : List Char :=
  match ps with
  | [] => []
  | p :: rest => rest.foldl (fun acc q => acc ++ (' ' :: q)) p

/-- Python `needle in hay` (substring containment; `"" in s` is true). -/
def pySubstr (needle : List Char) : List Char → Bool
  | [] => needle.isEmpty
  | c :: rest => needle.isPrefixOf (c :: rest) || pySubstr needle rest

/-- Python `s.replace(old, new)` for a nonempty `old` (all
non-overlapping occurrences, left to right).  An empty `old` leaves the
string unchanged here; the sources never pass an empty pattern. -/
def pyReplaceGo (pat rep : List Char) : Nat → List Char → List Char
  | _, [] => []
  | 0, s => s
  | Nat.succ fuel, c :: rest =>
    if pat ≠ [] && pat.isPrefixOf (c :: rest) then
      rep ++ pyReplaceGo pat rep fuel ((c :: rest).drop pat.length)
    else
      c :: pyReplaceGo pat rep fuel rest

def pyReplace (s pat rep : List Char) : List Char :=
  pyReplaceGo pat rep s.length s

/-- Character at a position (`none` past the end). -/
def nthc (s : List Char) (i : Nat) : Option Char := (s.drop i).head?

def isWordAt (s : List Char) (i : Nat) : Bool :=
  match nthc s i with
  | some c => pyIsWord c
  | none => false

/-- Python `re` word boundary `\b` at position `i` (between `s[i-1]` and
`s[i]`). -/
def boundaryAt (s : List Char) (i : Nat) : Bool :=
  let prev := if i = 0 then false else isWordAt s (i - 1)
  prev ≠ isWordAt s i

/-- Literal match at a position: `some` of the end position. -/
def litAt (s : List Char) (i : Nat) (lit : List Char) : Option Nat :=
  if lit.isPrefixOf (s.drop i) then some (i + lit.length) else none

/-- Case-insensitive literal match at a position (`re.IGNORECASE`). -/
def litAtIC (s : List Char) (i : Nat) (lit : List Char) : Option Nat :=
  if (lit.map pyLower).isPrefixOf ((s.drop i).take lit.length |>.map pyLower)
      && lit.length ≤ (s.drop i).length then
    some (i + lit.length)
  else none

/-- Length of the whitespace run starting at `i`. -/
def wsRunLen (s : List Char) (i : Nat) : Nat :=
  ((s.drop i).takeWhile pyIsSpace).length

/-- `\s*`: skip any whitespace. -/
def skipWs (s : List Char) (i : Nat) : Nat := i + wsRunLen s i

/-- `\s+`: skip at least one whitespace character. -/
def wsRun1 (s : List Char) (i : Nat) : Option Nat :=
  if (nthc s i).any pyIsSpace then some (skipWs s i) else none

/-- First `some` in a list of candidates (regex alternation order). -/
def firstSome {α : Type} : List (Option α) → Option α
  | [] => none
  | some a :: _ => some a
  | none :: rest => firstSome rest

/-- `re.search` scanning: try `p` at positions `i, i+1, …` for
`fuel + 1` positions, returning the first hit. -/
def scanFrom {α : Type} (p : Nat → Option α) : Nat → Nat → Option α
  | i, 0 => p i
  | i, Nat.succ fuel =>
    match p i with
    | some a => some a
    | none => scanFrom p (i + 1) fuel

/-- Leftmost match of `p` over the whole string. -/
def reSearch {α : Type} (s : List Char) (p : Nat → Option α) : Option α :=
  scanFrom p 0 s.length

/-- Length of the run of characters satisfying `cls` starting at `i`. -/
def clsRunLen (s : List Char) (cls : Char → Bool) (i : Nat) : Nat :=
  ((s.drop i).takeWhile cls).length

/-! ## utils_cleanup.py — layered email normalization -/

/-- utils_cleanup.FILLERS. -/
def FILLERS : List (List Char) :=
  ["eh".data, "öh".data, "aaah".data, "mmm".data, "typ".data, "liksom".data,
   "alltså".data, "ehm".data, "öhmm".data,
   "ja".data, "jo".data, "nej".data, "okej".data, "ok".data, "mm".data,
   "mhm".data, "ah".data, "jah".data, "well".data]

/-- utils_cleanup.SYMBOL_RULES, in dict insertion order. -/
def SYMBOL_RULES : List (List Char × List Char) :=
  [("snabel-a".data, "@".data), ("snabela".data, "@".data), ("snabel".data, "@".data),
   ("snabbel".data, "@".data),
   ("snabbela".data, "@".data), ("snabbel-a".data, "@".data), ("snobbel".data, "@".data),
   ("snobbel-a".data, "@".data),
   ("snobell".data, "@".data), ("snabble".data, "@".data), ("snabell".data, "@".data),
   ("snobbela".data, "@".data),
   ("at".data, "@".data), ("ett".data, "@".data),
   ("punkt".data, ".".data), ("punk".data, ".".data), ("ponkt".data, ".".data),
   ("pankt".data, ".".data), ("dot".data, ".".data), ("prick".data, ".".data),
   ("streck".data, "-".data), ("sträck".data, "-".data), ("bindestreck".data, "-".data),
   ("bindestrek".data, "-".data), ("dash".data, "-".data), ("minus".data, "-".data),
   ("understreck".data, "_".data), ("understräck".data, "_".data),
   ("underscore".data, "_".data), ("under score".data, "_".data),
   ("plus".data, "+".data), ("pluss".data, "+".data), ("plos".data, "+".data)]

/-- utils_cleanup.DOMAIN_RULES, in dict insertion order. -/
def DOMAIN_RULES : List (List Char × List Char) :=
  [("gmail com".data, "gmail.com".data), ("gmail punkt com".data, "gmail.com".data),
   ("gmail dot com".data, "gmail.com".data),
   ("hotmail com".data, "hotmail.com".data), ("hotmail punkt com".data, "hotmail.com".data),
   ("hot mail punkt com".data, "hotmail.com".data),
   ("outlook com".data, "outlook.com".data), ("out look com".data, "outlook.com".data),
   ("yahoo com".data, "yahoo.com".data), ("icloud com".data, "icloud.com".data),
   (".kom".data, ".com".data), ("punkt kom".data, ".com".data), ("dot com".data, ".com".data),
   ("dotcon".data, ".com".data), ("punkt con".data, ".com".data),
   (".se.".data, ".se".data), (".com.".data, ".com".data)]

/-- utils_cleanup.PHONETIC_MAP, in dict insertion order. -/
def PHONETIC_MAP : List (List Char × List Char) :=
  [("adam".data, "a".data), ("anders".data, "a".data),
   ("bertil".data, "b".data),
   ("cesar".data, "c".data), ("caesar".data, "c".data),
   ("david".data, "d".data),
   ("erik".data, "e".data),
   ("filip".data, "f".data),
   ("gustav".data, "g".data),
   ("helge".data, "h".data), ("hilda".data, "h".data),
   ("ivar".data, "i".data),
   ("johan".data, "j".data),
   ("kalle".data, "k".data),
   ("ludvig".data, "l".data), ("lovisa".data, "l".data),
   ("martin".data, "m".data), ("maria".data, "m".data),
   ("niklas".data, "n".data),
   ("olof".data, "o".data), ("oscar".data, "o".data), ("oskar".data, "o".data),
   ("petter".data, "p".data), ("pelle".data, "p".data),
   ("qvintus".data, "q".data), ("quintus".data, "q".data),
   ("rudolf".data, "r".data),
   ("sigurd".data, "s".data), ("sara".data, "s".data),
   ("tore".data, "t".data),
   ("urban".data, "u".data),
   ("viktor".data, "v".data), ("victor".data, "v".data),
   ("wilhelm".data, "w".data), ("dubbel-v".data, "w".data), ("double v".data, "w".data),
   ("double-v".data, "w".data),
   ("xerxes".data, "x".data), ("x-ray".data, "x".data),
   ("yngve".data, "y".data),
   ("zäta".data, "z".data), ("zeta".data, "z".data)]

def assocFind (rules : List (List Char × List Char)) (k : List Char) : Option (List Char) :=
  match rules.find? (fun r => r.1 = k) with
  | some r => some r.2
  | none => none

/-- The character set of `t.strip("’'\",;:()[]{}")` in `_apply_symbol_map`
(the braces are written numerically). -/
def symbolStripSet : List Char :=
  ['’', '\'', '"', ',', ';', ':', '(', ')', '[', ']', Char.ofNat 123, Char.ofNat 125]

/-- utils_cleanup._preclean: lowercase, strip, squeeze whitespace, drop
filler tokens. -/
def precleanU (text : List Char) : List Char :=
  let s := pyLowerStr (pyStripWs text)
  let s := squeezeWs s
  joinSpace ((pySplitSpace s).filter (fun t => ¬ FILLERS.contains t))

/-- utils_cleanup._apply_symbol_map: token-wise spoken-symbol
substitution (each token is stripped of quote/punctuation characters
first; the trailing no-op `.replace(" @ ", " @ ")` calls are omitted). -/
def apply_symbol_map (s : List Char) : List Char :=
  let toks := (pySplitSpace s).map (fun t =>
    let tc := pyStripChars symbolStripSet t
    match assocFind SYMBOL_RULES tc with
    | some r => r
    | none => tc)
  joinSpace toks

/-- Class `[a-zåäö]` of `_collapse_phonetics`'s pattern. -/
def somCls (c : Char) : Bool :=
  ('a' ≤ c && c ≤ 'z') || c = 'å' || c = 'ä' || c = 'ö'

/-- Match of `\b([a-zåäö])\s+som\s+([a-zåäö]+)\b` at position `i`:
returns `(groupOneLetter, endPos)`. -/
def somPatAt (s : List Char) (i : Nat) : Option (Char × Nat) :=
  if ¬ boundaryAt s i then none
  else
    match nthc s i with
    | none => none
    | some c =>
      if ¬ somCls c then none
      else
        match wsRun1 s (i + 1) with
        | none => none
        | some j =>
          match litAt s j "som".data with
          | none => none
          | some k =>
            match wsRun1 s k with
            | none => none
            | some l =>
              let run := clsRunLen s somCls l
              if run ≥ 1 && boundaryAt s (l + run) then some (c, l + run) else none

/-- `re.sub` for the `som` pattern, replacing each match by its first
group (the spoken letter). -/
def somSubGo (s : List Char) : Nat → Nat → List Char
  | _, 0 =>
    -- fuel exhausted: emit the rest unchanged (never happens with the
    -- initial fuel)
    []
  | i, Nat.succ fuel =>
    match somPatAt s i with
    | some (c, e) =>
      if e > i then c :: somSubGo s e fuel else c :: somSubGo s (i + 1) fuel
    | none =>
      match nthc s i with
      | some c => c :: somSubGo s (i + 1) fuel
      | none => []

/-- utils_cleanup._collapse_phonetics. -/
def collapse_phonetics (s : List Char) : List Char :=
  let toks := (pySplitSpace s).map (fun t =>
    match assocFind PHONETIC_MAP t with
    | some r => r
    | none => t)
  let s := joinSpace toks
  somSubGo s 0 (s.length + 1)

/-- Match of a `\s*`-separated literal sequence (the glued-domain
patterns such as `g\s*mail\s*punkt\s*com`) at position `i`; returns the
end position. -/
def litSeqAt (s : List Char) (i : Nat) : List (List Char) → Option Nat
  | [] => some i
  | [p] => litAt s i p
  | p :: rest =>
    match litAt s i p with
    | some j => litSeqAt s (skipWs s j) rest
    | none => none

/-- `re.sub` of a `\s*`-separated literal sequence by a fixed
replacement. -/
def litSeqSubGo (s : List Char) (parts : List (List Char)) (rep : List Char) :
    Nat → Nat → List Char
  | _, 0 => []
  | i, Nat.succ fuel =>
    match litSeqAt s i parts with
    | some e =>
      if e > i then rep ++ litSeqSubGo s parts rep e fuel
      else
        match nthc s i with
        | some c => c :: litSeqSubGo s parts rep (i + 1) fuel
        | none => rep
    | none =>
      match nthc s i with
      | some c => c :: litSeqSubGo s parts rep (i + 1) fuel
      | none => []

def litSeqSub (s : List Char) (parts : List (List Char)) (rep : List Char) : List Char :=
  litSeqSubGo s parts rep 0 (s.length + 1)

/-- utils_cleanup._apply_domain_fixes: the ordered literal replacements
of DOMAIN_RULES followed by five glued-phrase regex substitutions. -/
def apply_domain_fixes (s : List Char) : List Char :=
  let s := DOMAIN_RULES.foldl (fun acc r => pyReplace acc r.1 r.2) s
  let s := litSeqSub s ["g".data, "mail".data, "punkt".data, "com".data] "gmail.com".data
  let s := litSeqSub s ["g".data, "mail".data, "dot".data, "com".data] "gmail.com".data
  let s := litSeqSub s ["hot".data, "mail".data, "punkt".data, "com".data] "hotmail.com".data
  let s := litSeqSub s ["out".data, "look".data, "punkt".data, "com".data] "outlook.com".data
  litSeqSub s ["icloud".data, "punkt".data, "com".data] "icloud.com".data

/-- utils_cleanup._tighten_symbols.  The `re.sub(r"\s*X\s*", "X", …)`
passes only delete whitespace around the symbols and the final
`replace(" ", "")` deletes every remaining space; at this stage of the
pipeline every whitespace character is a plain space (`_preclean`
collapsed `\s+` to single spaces and no later step introduces other
whitespace), so the net effect is the removal of all whitespace. -/
def tighten_symbols (s : List Char) : List Char :=
  s.filter (fun c => ¬ pyIsSpace c)

/-- utils_cleanup._strip_diacritics. -/
def strip_diacritics (s : List Char) : List Char :=
  s.map (fun c =>
    if c = 'å' then 'a' else if c = 'ä' then 'a' else if c = 'ö' then 'o'
    else if c = 'Å' then 'A' else if c = 'Ä' then 'A' else if c = 'Ö' then 'O'
    else c)

/-- Local-part class `[A-Za-z0-9._%+\-]` of the email pattern. -/
def emailClsA (c : Char) : Bool :=
  ('A' ≤ c && c ≤ 'Z') || ('a' ≤ c && c ≤ 'z') || ('0' ≤ c && c ≤ '9')
  || c = '.' || c = '_' || c = '%' || c = '+' || c = '-'

/-- Domain class `[A-Za-z0-9.\-]`. -/
def emailClsB (c : Char) : Bool :=
  ('A' ≤ c && c ≤ 'Z') || ('a' ≤ c && c ≤ 'z') || ('0' ≤ c && c ≤ '9')
  || c = '.' || c = '-'

/-- TLD class `[A-Za-z]`. -/
def emailClsC (c : Char) : Bool :=
  ('A' ≤ c && c ≤ 'Z') || ('a' ≤ c && c ≤ 'z')

/-- Rightmost dot split for the greedy `[…]+\.[A-Za-z]{2,}` tail:
given the digits of candidate dot offsets `k` (descending), pick the
first with a letter run of length ≥ 2 right after it. -/
def emailTailSplit (s : List Char) (ks : List Nat) : Option Nat :=
  match ks with
  | [] => none
  | k :: rest =>
    if nthc s k = some '.' && clsRunLen s emailClsC (k + 1) ≥ 2 then
      some (k + 1 + clsRunLen s emailClsC (k + 1))
    else emailTailSplit s rest

/-- Match of `[A-Za-z0-9._%+\-]+@[A-Za-z0-9.\-]+\.[A-Za-z]{2,}` at
position `i` with Python's greedy/backtracking semantics; returns the
end position of the match. -/
def emailMatchAt (s : List Char) (i : Nat) : Option Nat :=
  let aRun := clsRunLen s emailClsA i
  if aRun = 0 then none
  else if nthc s (i + aRun) ≠ some '@' then none
  else
    let j := i + aRun + 1
    let bRun := clsRunLen s emailClsB j
    if bRun = 0 then none
    else
      -- candidate dot positions inside the domain run, rightmost first;
      -- the dot must leave a nonempty `[…]+` before it (k ≥ j + 1)
      let ks := (List.range bRun).reverse.filterMap (fun o =>
        let k := j + o
        if k ≥ j + 1 then some k else none)
      emailTailSplit s ks

/-- `re.findall` of the email pattern (non-overlapping, left to
right). -/
def emailFindAllGo (s : List Char) : Nat → Nat → List (List Char)
  | _, 0 => []
  | i, Nat.succ fuel =>
    if i ≥ s.length then []
    else
      match emailMatchAt s i with
      | some e =>
        if e > i then ((s.drop i).take (e - i)) :: emailFindAllGo s e fuel
        else emailFindAllGo s (i + 1) fuel
      | none => emailFindAllGo s (i + 1) fuel

def emailFindAll (s : List Char) : List (List Char) :=
  emailFindAllGo s 0 (s.length + 1)

/-- utils_cleanup._extract_best_email: longest candidate, first among
ties (Python `max(…, key=len)`). -/
def extract_best_email (s : List Char) : Option (List Char) :=
  match emailFindAll s with
  | [] => none
  | c :: rest => some (rest.foldl (fun best x => if x.length > best.length then x else best) c)

/-- utils_cleanup.normalize_spelled_email (on character lists). -/
def normalizeSpelledEmailL (text : List Char) : List Char :=
  if text = [] then []
  else
    let s := precleanU text
    let s := apply_symbol_map s
    let s := collapse_phonetics s
    let s := apply_domain_fixes s
    let s := pyReplace (pyReplace s "snabela".data "@".data) "snabel@".data "@".data
    let s := tighten_symbols s
    let s := strip_diacritics s
    match extract_best_email s with
    | some c => c
    | none =>
      let s := pyReplace (pyReplace s "kom".data "com".data) "@gmailcom".data "@gmail.com".data
      match extract_best_email s with
      | some c => c
      | none => s

/-- utils_cleanup.normalize_spelled_email. -/
def normalize_spelled_email (text : String) : String :=
  ⟨normalizeSpelledEmailL text.data⟩

/-- utils_cleanup.validate_email: `EMAIL_REGEX.match` is anchored with
`^…$`; with the greedy email matcher this holds exactly when the whole
string (up to one trailing newline, which `$` permits) is one email
match starting at 0. -/
def validate_email (s : String) : Bool :=
  if s.data = [] then false
  else
    let t := strip_diacritics s.data
    match emailMatchAt t 0 with
    | some e => e = t.length || (e + 1 = t.length && nthc t e = some '\n')
    | none => false

/-! ## Proleptic-Gregorian dates (Python `datetime.date` as ordinals) -/

/-- Python `datetime`: leap year. -/
def isLeapYear (y : Nat) : Bool := (y % 4 = 0 && y % 100 ≠ 0) || y % 400 = 0

/-- Days in a month (`y ≥ 1`, `1 ≤ m ≤ 12`). -/
def daysInMonth (y m : Nat) : Nat :=
  if m = 2 then (if isLeapYear y then 29 else 28)
  else if m = 4 || m = 6 || m = 9 || m = 11 then 30
  else 31

/-- Days before January 1 of year `y` (Python `_days_before_year`). -/
def daysBeforeYear (y : Nat) : Nat :=
  let p := y - 1
  365 * p + p / 4 - p / 100 + p / 400

/-- Days in year `y` before month `m` (Python `_days_before_month`). -/
def daysBeforeMonth (y m : Nat) : Nat :=
  (List.range (m - 1)).foldl (fun acc i => acc + daysInMonth y (i + 1)) 0

/-- `date(y, m, d).toordinal()` for a valid date. -/
def ymdToOrd (y m d : Nat) : Nat :=
  daysBeforeYear y + daysBeforeMonth y m + d

/-- Python `datetime.date(y, m, d)`: `none` models the `ValueError`
raised on out-of-range components. -/
def mkDate (y m d : Nat) : Option Nat :=
  if 1 ≤ y && y ≤ 9999 && 1 ≤ m && m ≤ 12 && 1 ≤ d && d ≤ daysInMonth y m then
    some (ymdToOrd y m d)
  else none

/-- Find the month of a 0-based day `r` of year `y`
(helper of `_ord2ymd`). -/
def findMonthF (y : Nat) : Nat → Nat → Nat → Nat × Nat
  | 0, _, r => (12, r + 1)
  | fuel + 1, m, r =>
    if m ≥ 12 then (12, r + 1)
    else
      let dim := daysInMonth y m
      if r < dim then (m, r + 1) else findMonthF y fuel (m + 1) (r - dim)

def findMonth (y : Nat) (m r : Nat) : Nat × Nat := findMonthF y 12 m r

/-- `date.fromordinal` / Python `_ord2ymd`. -/
def ordToYmd (nn : Nat) : Nat × Nat × Nat :=
  let n0 := nn - 1
  let n400 := n0 / 146097
  let n := n0 % 146097
  let n100 := n / 36524
  let n := n % 36524
  let n4 := n / 1461
  let n := n % 1461
  let n1 := n / 365
  let r := n % 365
  let year := n400 * 400 + n100 * 100 + n4 * 4 + n1 + 1
  if n1 = 4 || n100 = 4 then (year - 1, 12, 31)
  else
    let (m, d) := findMonth year 1 r
    (year, m, d)

/-- Decimal rendering, zero-padded to `w` digits. -/
def padNum (w n : Nat) : List Char :=
  let ds := (Nat.toDigits 10 n)
  (List.replicate (w - ds.length) '0') ++ ds

/-- `date.isoformat()` (also used for `strftime("%Y-%m-%d")`; the two
agree for the years 1000–9999, which covers every date the parsers can
produce from their `20\d\d` patterns and from "today"). -/
def isoOfOrd (o : Nat) : List Char :=
  let (y, m, d) := ordToYmd o
  padNum 4 y ++ '-' :: padNum 2 m ++ '-' :: padNum 2 d

def isoOfOrdS (o : Nat) : String := ⟨isoOfOrd o⟩

/-- `date.weekday()` (Monday = 0).  Ordinal 1 is 0001-01-01, a
Monday. -/
def pyWeekday (o : Nat) : Nat := (o + 6) % 7

/-! ## utils_cleanup.py — parse_sv_date_time -/

/-- utils_cleanup.WD. -/
def WD : List (List Char × Nat) :=
  [("mån".data, 0), ("tis".data, 1), ("ons".data, 2), ("tors".data, 3),
   ("fre".data, 4), ("lör".data, 5), ("sön".data, 6)]

/-- Match of `nästa\s+(mån|tis|ons|tors|fre|lör|sön)` at a position;
returns the weekday index of the first alternative that matches. -/
def nastaPatAt (s : List Char) (i : Nat) : Option Nat :=
  match litAt s i "nästa".data with
  | none => none
  | some j =>
    match wsRun1 s j with
    | none => none
    | some k =>
      firstSome (WD.map (fun w =>
        match litAt s k w.1 with
        | some _ => some w.2
        | none => none))

/-- Match of `(20\d{2})-(\d{2})-(\d{2})` at a position; returns
`(y, m, d)` as numbers. -/
def isoPatAt (s : List Char) (i : Nat) : Option (Nat × Nat × Nat) :=
  match nthc s i, nthc s (i+1), nthc s (i+2), nthc s (i+3), nthc s (i+4),
        nthc s (i+5), nthc s (i+6), nthc s (i+7), nthc s (i+8), nthc s (i+9) with
  | some c0, some c1, some c2, some c3, some c4, some c5, some c6, some c7, some c8,
    some c9 =>
    if c0 = '2' && c1 = '0' && pyIsDigit c2 && pyIsDigit c3 && c4 = '-'
        && pyIsDigit c5 && pyIsDigit c6 && c7 = '-' && pyIsDigit c8 && pyIsDigit c9 then
      some (2000 + digitVal c2 * 10 + digitVal c3,
            digitVal c5 * 10 + digitVal c6,
            digitVal c8 * 10 + digitVal c9)
    else none
  | _, _, _, _, _, _, _, _, _, _ => none

/-- The hour alternation `([01]?\d|2[0-3])` at a position, listed in
regex engine order (two digits with a leading 0/1, one digit, `2[0-3]`);
each candidate is `(value, endPos)`. -/
def hourCands (s : List Char) (i : Nat) : List (Nat × Nat) :=
  (match nthc s i, nthc s (i+1) with
   | some a, some b =>
     if (a = '0' || a = '1') && pyIsDigit b then [(digitVal a * 10 + digitVal b, i + 2)]
     else []
   | _, _ => []) ++
  (match nthc s i with
   | some a => if pyIsDigit a then [(digitVal a, i + 1)] else []
   | none => []) ++
  (match nthc s i, nthc s (i+1) with
   | some a, some b =>
     if a = '2' && ('0' ≤ b && b ≤ '3') then [(20 + digitVal b, i + 2)]
     else []
   | _, _ => [])

/-- Minutes `([0-5]\d)` at a position: `(minutesText, endPos)`. -/
def minutesAt (s : List Char) (i : Nat) : Option (List Char × Nat) :=
  match nthc s i, nthc s (i+1) with
  | some a, some b =>
    if ('0' ≤ a && a ≤ '5') && pyIsDigit b then some ([a, b], i + 2) else none
  | _, _ => none

/-- Match of `\b([01]?\d|2[0-3])SEP([0-5]\d)\b` at a position for a set
of separator characters (`:` in utils_cleanup and app.py, `[:\.]` in
hair.py); returns `(hour, minutesText)`. -/
def hhmmPatAt (seps : List Char) (s : List Char) (i : Nat) : Option (Nat × List Char) :=
  if ¬ boundaryAt s i then none
  else
    firstSome ((hourCands s i).map (fun hc =>
      match nthc s hc.2 with
      | some sep =>
        if seps.contains sep then
          match minutesAt s (hc.2 + 1) with
          | some (mm, e) => if boundaryAt s e then some (hc.1, mm) else none
          | none => none
        else none
      | none => none))

/-- `f"{h:02d}:{mm}"`. -/
def fmtHhMm (h : Nat) (mm : List Char) : List Char := padNum 2 h ++ ':' :: mm

/-- Match of `(halv|kvart över|kvart i)\s*(\d{1,2})` at a position
(no word boundaries in this pattern); returns `(branch, number)` where
branch 0 = halv, 1 = kvart över, 2 = kvart i.  The number is the greedy
1–2 digit group. -/
def halvKvartPatAt (s : List Char) (i : Nat) : Option (Nat × Nat) :=
  firstSome ([(0, "halv".data), (1, "kvart över".data), (2, "kvart i".data)].map
    (fun alt =>
      match litAt s i alt.2 with
      | none => none
      | some j =>
        let k := skipWs s j
        match nthc s k, nthc s (k+1) with
        | some a, some b =>
          if pyIsDigit a && pyIsDigit b then some (alt.1, digitVal a * 10 + digitVal b)
          else if pyIsDigit a then some (alt.1, digitVal a)
          else none
        | some a, none => if pyIsDigit a then some (alt.1, digitVal a) else none
        | _, _ => none))

/-- Python `(h - 1) % 24` on an `int` (a nonnegative hour here). -/
def hSub1Mod24 (h : Nat) : Nat := (h + 23) % 24

/-- utils_cleanup.parse_sv_date_time.  `base` is the ordinal of the base
date (`dt.date.today()` when the caller passes none).  `Except` models
the uncaught `ValueError` that `dt.date(...)` raises when the
`20\d\d-\d\d-\d\d` text is not a real date. -/
def parse_sv_date_time (t : String) (base : Nat) :
    Except Unit (Option String × Option String) := do
  let t0 := pyLowerStr (pyStripWs t.data)
  -- ----- DATE -----
  let dateOrd : Except Unit (Option Nat) :=
    if pySubstr "idag".data t0 then .ok (some base)
    else if pySubstr "imorgon".data t0 then .ok (some (base + 1))
    else if pySubstr "i övermorgon".data t0 || pySubstr "i över morgon".data t0 then
      .ok (some (base + 2))
    else if pySubstr "nästa ".data t0 then
      match reSearch t0 (nastaPatAt t0) with
      | some target =>
        let delta := (target + 7 - pyWeekday base) % 7
        let delta := if delta = 0 then 7 else delta
        .ok (some (base + delta))
      | none => .ok none
    else
      match reSearch t0 (isoPatAt t0) with
      | some (y, m, d) =>
        match mkDate y m d with
        | some o => .ok (some o)
        | none => .error ()   -- ValueError from dt.date
      | none => .ok none
  let date ← dateOrd
  -- ----- TIME -----
  let time :=
    match reSearch t0 (hhmmPatAt [':'] t0) with
    | some (h, mm) => some (fmtHhMm h mm)
    | none =>
      match reSearch t0 (halvKvartPatAt t0) with
      | some (0, n) => some (fmtHhMm (hSub1Mod24 (n % 24)) "30".data)
      | some (1, n) => some (fmtHhMm (n % 24) "15".data)
      | some (2, n) => some (fmtHhMm (hSub1Mod24 (n % 24)) "45".data)
      | some _ => none
      | none =>
        if pySubstr "lunchtid".data t0 || pySubstr "vid lunch".data t0 then
          some "12:00".data
        else if pySubstr "förmiddag".data t0 then some "10:00".data
        else if pySubstr "eftermiddag".data t0 then some "15:00".data
        else none
  .ok (date.map isoOfOrdS, time.map (fun l => (⟨l⟩ : String)))

/-! ## hair.py — slot extractors and time parsing -/

/-- The trailing-boundary hour token: `([01]?\d|2[0-3])\b` with regex
backtracking over the alternation (used by the bare-hour, halv and
kvart patterns of hair.py). -/
def hourTokenBAt (s : List Char) (i : Nat) : Option Nat :=
  firstSome ((hourCands s i).map (fun hc =>
    if boundaryAt s hc.2 then some hc.1 else none))

/-- After an optional prefix of the bare-hour pattern: `\s*\b` then the
bounded hour token. -/
def bareHourRestAt (s : List Char) (j : Nat) : Option Nat :=
  let k := skipWs s j
  if boundaryAt s k then hourTokenBAt s k else none

/-- Match of `(klockan|kl\.?|vid)?\s*\b([01]?\d|2[0-3])\b` at a
position, prefix alternatives in engine order (`kl\.?` greedily tries
the dot first, the whole group may be skipped). -/
def bareHourPatAt (s : List Char) (i : Nat) : Option Nat :=
  firstSome
    [(litAt s i "klockan".data).bind (bareHourRestAt s),
     (litAt s i "kl.".data).bind (bareHourRestAt s),
     (litAt s i "kl".data).bind (bareHourRestAt s),
     (litAt s i "vid".data).bind (bareHourRestAt s),
     bareHourRestAt s i]

/-- Match of `\bLIT\s+([01]?\d|2[0-3])\b` at a position (the halv /
kvart över / kvart i patterns of hair.py). -/
def wordHourPatAt (lit : List Char) (s : List Char) (i : Nat) : Option Nat :=
  if ¬ boundaryAt s i then none
  else
    match litAt s i lit with
    | none => none
    | some j =>
      match wsRun1 s j with
      | none => none
      | some k => hourTokenBAt s k

/-- hair._parse_time_from_text. -/
def parse_time_from_text (text : String) : Option String :=
  let t := pyLowerStr (pyStripWs text.data)
  match reSearch t (hhmmPatAt [':', '.'] t) with
  | some (h, mm) => some ⟨fmtHhMm h mm⟩
  | none =>
    match reSearch t (bareHourPatAt t) with
    | some hh => some ⟨fmtHhMm hh "00".data⟩
    | none =>
      match reSearch t (wordHourPatAt "halv".data t) with
      | some hh => some ⟨fmtHhMm (hSub1Mod24 hh) "30".data⟩
      | none =>
        match reSearch t (wordHourPatAt "kvart över".data t) with
        | some hh => some ⟨fmtHhMm (hh % 24) "15".data⟩
        | none =>
          match reSearch t (wordHourPatAt "kvart i".data t) with
          | some hh => some ⟨fmtHhMm (hSub1Mod24 hh) "45".data⟩
          | none =>
            if pySubstr "vid lunch".data t || pySubstr "lunchtid".data t then
              some "12:00"
            else if pySubstr "förmiddag".data t then some "10:00"
            else if pySubstr "eftermiddag".data t then some "15:00"
            else none

/-- hair.WEEKDAY_MAP, in dict insertion order. -/
def WEEKDAY_MAP : List (String × Nat) :=
  [("måndag", 0), ("tisdag", 1), ("onsdag", 2), ("torsdag", 3),
   ("fredag", 4), ("lördag", 5), ("söndag", 6)]

/-- hair._parse_relative_date (`today` is the ordinal of
`datetime.now()`'s date; the result is `strftime("%Y-%m-%d")`). -/
def parse_relative_date (text : String) (today : Nat) : Option String :=
  if text.data = [] then none
  else
    let t := pyLowerStr text.data
    firstSome (WEEKDAY_MAP.map (fun w =>
      if pySubstr ("nästa " ++ w.1).data t || pySubstr ("nästa vecka " ++ w.1).data t then
        let da := (w.2 + 7 - pyWeekday today) % 7
        let da := if da = 0 then 7 else da
        let da := if pySubstr "nästa vecka".data t && da < 7 then da + 7 else da
        some (isoOfOrdS (today + da))
      else none))

/-- Match of `\b(\d{3,10})\b` at a position (hair._extract_booking_id's
pattern): a maximal digit run of length 3–10 delimited by word
boundaries. -/
def bookingIdPatAt (s : List Char) (i : Nat) : Option (List Char) :=
  if ¬ boundaryAt s i then none
  else
    let run := clsRunLen s pyIsDigit i
    if 3 ≤ run && run ≤ 10 && boundaryAt s (i + run) then
      some ((s.drop i).take run)
    else none

/-- hair._extract_booking_id. -/
def extract_booking_id (text : String) : Option String :=
  (reSearch text.data (bookingIdPatAt text.data)).map (fun l => (⟨l⟩ : String))

/-- A case-insensitive literal alternative of a `\b(...)\b` pattern:
the literal followed by a word boundary. -/
def altLitBAt (s : List Char) (i : Nat) (lit : List Char) : Option Unit :=
  match litAtIC s i lit with
  | some j => if boundaryAt s j then some () else none
  | none => none

/-- Match of hair.CANCEL_PAT
`\b(avboka|avbokning|avboka min|avboka tiden|ta bort min tid|cancel)\b`
(IGNORECASE) at a position. -/
def cancelPatAt (s : List Char) (i : Nat) : Option Unit :=
  if ¬ boundaryAt s i then none
  else
    firstSome (["avboka".data, "avbokning".data, "avboka min".data, "avboka tiden".data,
      "ta bort min tid".data, "cancel".data].map (altLitBAt s i))

/-- hair._cancel_intent. -/
def cancel_intent (text : String) : Bool :=
  (reSearch text.data (cancelPatAt text.data)).isSome

/-- The alternative `reschedul[a-z]*` of RESCHEDULE_PAT: the literal, a
greedy (IGNORECASE) letter run, then a word boundary. -/
def reschedulAltAt (s : List Char) (i : Nat) : Option Unit :=
  match litAtIC s i "reschedul".data with
  | some j =>
    let run := clsRunLen s (fun c => ('a' ≤ pyLower c && pyLower c ≤ 'z')) j
    if boundaryAt s (j + run) then some () else none
  | none => none

/-- The alternative `om\s*boka` of RESCHEDULE_PAT. -/
def omBokaAltAt (s : List Char) (i : Nat) : Option Unit :=
  match litAtIC s i "om".data with
  | some j =>
    match litAtIC s (skipWs s j) "boka".data with
    | some k => if boundaryAt s k then some () else none
    | none => none
  | none => none

/-- Match of hair.RESCHEDULE_PAT
`\b(ändra|ändra tiden|om\s*boka|omboka|flytta tiden|byt tid|reschedul[a-z]*)\b`
(IGNORECASE) at a position. -/
def reschedPatAt (s : List Char) (i : Nat) : Option Unit :=
  if ¬ boundaryAt s i then none
  else
    firstSome
      [altLitBAt s i "ändra".data, altLitBAt s i "ändra tiden".data,
       omBokaAltAt s i, altLitBAt s i "omboka".data,
       altLitBAt s i "flytta tiden".data, altLitBAt s i "byt tid".data,
       reschedulAltAt s i]

def resched_intent (text : String) : Bool :=
  (reSearch text.data (reschedPatAt text.data)).isSome

/-- Class `[A-Ö]` (the raw codepoint range 65–214, which also covers
the ASCII lowercase letters and some punctuation). -/
def clsAO (c : Char) : Bool := 65 ≤ c.toNat && c.toNat ≤ 214

/-- Class `[a-ö]` (codepoints 97–246). -/
def clsao (c : Char) : Bool := 97 ≤ c.toNat && c.toNat ≤ 246

/-- IGNORECASE closure of a character class. -/
def icCls (cls : Char → Bool) (c : Char) : Bool :=
  cls c || cls (pyLower c) || cls (pyUpper c)

/-- Class `[^\d,\.]`. -/
def notDigCommaDot (c : Char) : Bool := ¬ pyIsDigit c && c ≠ ',' && c ≠ '.'

/-- Match of `\bjag\s+heter\s+([a-öA-Ö][^\d,\.]+)$` (IGNORECASE) at a
position of the stripped text; returns the group. -/
def jagHeterPatAt (s : List Char) (i : Nat) : Option (List Char) :=
  if ¬ boundaryAt s i then none
  else
    match litAtIC s i "jag".data with
    | none => none
    | some j =>
      match wsRun1 s j with
      | none => none
      | some k =>
        match litAtIC s k "heter".data with
        | none => none
        | some l =>
          match wsRun1 s l with
          | none => none
          | some m =>
            match nthc s m with
            | none => none
            | some c =>
              if icCls (fun d => clsao d || clsAO d) c then
                let run := clsRunLen s notDigCommaDot (m + 1)
                -- `[^\d,\.]+$`: the greedy run must be nonempty and
                -- reach the end of the string ('\n' is in the class, so
                -- the before-final-newline variant of `$` cannot occur)
                if run ≥ 1 && m + 1 + run = s.length then
                  some ((s.drop m).take (1 + run))
                else none
              else none

/-- Match of `\b[A-Ö][a-ö]+(?:\s+[A-Ö][a-ö]+)?` (no IGNORECASE) at a
position; returns the matched text. -/
def capWordPatAt (s : List Char) (i : Nat) : Option (List Char) :=
  if ¬ boundaryAt s i then none
  else
    match nthc s i with
    | none => none
    | some c =>
      if ¬ clsAO c then none
      else
        let run := clsRunLen s clsao (i + 1)
        if run = 0 then none
        else
          let e := i + 1 + run
          -- greedy optional second word
          let e2 :=
            match wsRun1 s e with
            | some j =>
              match nthc s j with
              | some d =>
                if clsAO d then
                  let run2 := clsRunLen s clsao (j + 1)
                  if run2 ≥ 1 then some (j + 1 + run2) else none
                else none
              | none => none
            | none => none
          some ((s.drop i).take ((e2.getD e) - i))

/-- hair._extract_name. -/
def extract_name (text : String) : Option String :=
  let stripped := pyStripWs text.data
  match reSearch stripped (jagHeterPatAt stripped) with
  | some g => some ⟨pyStripWs g⟩
  | none =>
    match reSearch text.data (capWordPatAt text.data) with
    | some m => some ⟨pyStripWs m⟩
    | none => none

/-- One greedy unit `\d[\s-]*` of RE_PHONE at a position. -/
def phoneUnitAt (s : List Char) (i : Nat) : Option Nat :=
  match nthc s i with
  | some c =>
    if pyIsDigit c then
      some (i + 1 + clsRunLen s (fun d => pyIsSpace d || d = '-') (i + 1))
    else none
  | none => none

/-- Greedily consume up to `left` further units, returning the end after
the last one consumed and the number consumed. -/
def phoneUnits (s : List Char) : Nat → Nat → Nat × Nat
  | i, 0 => (i, 0)
  | i, Nat.succ left =>
    match phoneUnitAt s i with
    | some j =>
      let (e, n) := phoneUnits s j left
      (e, n + 1)
    | none => (i, 0)

/-- Match of RE_PHONE `(?:\+?46|0)\s*(?:\d[\s-]*){8,10}` at a position;
returns the end of the match. -/
def phonePatAt (s : List Char) (i : Nat) : Option Nat :=
  let afterPre := firstSome
    [litAt s i "+46".data, litAt s i "46".data, litAt s i "0".data]
  match afterPre with
  | none => none
  | some j =>
    let k := skipWs s j
    let (e, n) := phoneUnits s k 10
    if n ≥ 8 then some e else none

/-- Normalization of a digit string to +46 E.164 form (the shared tail
of `_extract_phone`'s two paths; the second `startswith('46')` test in
the source is dead and omitted). -/
def phoneDigitsToE164 (ds : List Char) : String :=
  if "0046".data.isPrefixOf ds then ⟨'+' :: '4' :: '6' :: ds.drop 4⟩
  else if "46".data.isPrefixOf ds then ⟨'+' :: ds⟩
  else if "0".data.isPrefixOf ds then ⟨'+' :: '4' :: '6' :: ds.drop 1⟩
  else ⟨"+46".data ++ ds.drop (ds.length - 9)⟩

/-- hair._extract_phone. -/
def extract_phone (text : String) : Option String :=
  match reSearch text.data (fun i => (phonePatAt text.data i).map (fun e => (i, e))) with
  | some (i, e) =>
    let raw := (text.data.drop i).take (e - i)
    some (phoneDigitsToE164 (raw.filter pyIsDigit))
  | none =>
    let digitsAll := text.data.filter pyIsDigit
    if digitsAll.length < 9 then none
    else some (phoneDigitsToE164 digitsAll)

/-- Whether the whole string is one `EMAIL_RE` match (`^…$`; `$` also
accepts a position before one final newline). -/
def emailFullMatch (t : List Char) : Bool :=
  match emailMatchAt t 0 with
  | some e => e = t.length || (e + 1 = t.length && nthc t e = some '\n')
  | none => false

/-- The ordered replacement table of hair._parse_email (the duplicated
`" punkt nu"` dict key collapses to one entry). -/
def parseEmailRepl : List (List Char × List Char) :=
  [("snabel-a".data, "@".data), ("snabel a".data, "@".data), ("snabela".data, "@".data),
   ("snabel_ a".data, "@".data), ("snabel@".data, "@".data),
   (" at ".data, "@".data),
   (" punkt ".data, ".".data), (" dot ".data, ".".data),
   (" punktcom".data, ".com".data), (" punkt com".data, ".com".data),
   (" punkt se".data, ".se".data), (" punktse".data, ".se".data),
   (" punkt nu".data, ".nu".data)]

/-- `re.sub(r"\s*SYM\s*", "SYM", …)`: delete whitespace around a
symbol. -/
def subAroundSymGo (s : List Char) (sym : Char) : Nat → Nat → List Char
  | _, 0 => []
  | i, Nat.succ fuel =>
    let a := wsRunLen s i
    if nthc s (i + a) = some sym then
      sym :: subAroundSymGo s sym (skipWs s (i + a + 1)) fuel
    else
      match nthc s i with
      | some c => c :: subAroundSymGo s sym (i + 1) fuel
      | none => []

def subAroundSym (s : List Char) (sym : Char) : List Char :=
  subAroundSymGo s sym 0 (s.length + 1)

/-- The strip set `" ,;:!?)\"]}<>("` of `_parse_email` (the brace is
written numerically). -/
def parseEmailStripSet : List Char :=
  [' ', ',', ';', ':', '!', '?', ')', '"', ']', Char.ofNat 125, '<', '>', '(']

/-- hair._parse_email. -/
def parse_email (text : String) : Option String :=
  let t := pyLowerStr text.data
  let t := parseEmailRepl.foldl (fun acc r => pyReplace acc r.1 r.2) t
  let t := subAroundSym t '@'
  let t := subAroundSym t '.'
  match reSearch t (fun i => (emailMatchAt t i).map (fun e => (i, e))) with
  | none => none
  | some (i, e) =>
    let cand := (t.drop i).take (e - i)
    let cand := pyStripChars parseEmailStripSet cand
    let cand := pyLowerStr cand
    if emailFullMatch cand then some ⟨cand⟩ else none

/-! ## hair.py — session model, catalog routing, dialog -/

/-- One availability slot as returned by the ADAPTER
(`{"time_id": …, "start": "...", "end": "..."}`). -/
structure AvailSlot where
  timeId : Int
  start : String
  stop : String
  deriving DecidableEq, Repr

/-- One catalog service (`{"id": …, "name": …, "duration_mins": …}`). -/
structure HService where
  sid : Int
  sname : String
  deriving DecidableEq, Repr

/-- The booking record a successful `ADAPTER.create_booking` returns
(the fields the dialog reads). -/
structure HBooking where
  bid : Int
  start : String
  service_name : String
  deriving DecidableEq, Repr

/-- Result of `ADAPTER.create_booking`: success, a `{"ok": False}`
payload, or a raised exception. -/
inductive CreateRes where
  | ok (b : HBooking)
  | err
  | raises
  deriving DecidableEq, Repr

/-- The `"canceled"` record of a successful `ADAPTER.cancel_booking`
(the fields `_do_reschedule` reads). -/
structure CancelRec where
  service_id : Option Int
  cname : Option String
  cemail : Option String
  cphone : Option String
  deriving DecidableEq, Repr

inductive CancelRes where
  | ok (rec : CancelRec)
  | notFound
  | raises
  deriving DecidableEq, Repr

/-- The hair session slot dictionary (`SESSION[cid]["slots"]`): each
field is `none` when the key is absent; `phone` can hold a stored
Python `None` (`_set(cid, "phone", None)`), hence the nested option, and
`slot` can hold a stored `{}` the same way.  The constant
`"last_prompt"` key of the session dict is never read and omitted. -/
structure HSess where
  salon_id : Option Int := none
  name : Option String := none
  phone : Option (Option String) := none
  phone_confirmed : Option Bool := none
  email : Option String := none
  service_id : Option Int := none
  service_name : Option String := none
  time_id : Option Int := none
  slot : Option (Option AvailSlot) := none
  awaiting_confirm : Option Bool := none
  awaiting_resched : Option Bool := none
  awaiting_bkid : Option Bool := none
  booking_id : Option String := none
  done : Option Bool := none
  notes : Option String := none
  deriving DecidableEq, Repr

/-- Python truthiness of `_g(cid, k)` for string-valued slots. -/
def tOptStr : Option String → Bool
  | some s => s ≠ ""
  | none => false

/-- Truthiness for `phone` (absent key, stored `None` and `""` are all
falsy). -/
def tOptOptStr : Option (Option String) → Bool
  | some (some s) => s ≠ ""
  | _ => false

def tOptInt : Option Int → Bool
  | some n => n ≠ 0
  | none => false

def tOptBool : Option Bool → Bool
  | some b => b
  | none => false

/-- Truthiness for `slot` (absent key and stored `{}` are falsy). -/
def tOptSlot : Option (Option AvailSlot) → Bool
  | some (some _) => true
  | _ => false

/-- The external world of one hair turn: the ADAPTER (spec §6 excludes
it as a collaborator), difflib, randomness, the clock and the e-mail /
SMS senders, all fixed oracles for the turn. -/
structure HairEnv where
  todayStr : String                                      -- time.strftime("%Y-%m-%d")
  today : Nat                                            -- datetime.now() (date ordinal)
  humor : String                                         -- _maybe_humor()
  services : List HService                               -- ADAPTER.list_services(…)
  avail : Int → Option Int → String → List AvailSlot     -- ADAPTER.check_availability
  create : Int → Option Int → Option Int → CreateRes     -- ADAPTER.create_booking
  cancel : Int → Int → CancelRes                         -- ADAPTER.cancel_booking
  closeMatch : String → List String → Option Nat         -- difflib.get_close_matches + index
  emailOk : Bool                                         -- send_email_html outcome
  enqueueOk : Bool                                       -- enqueue_email outcome

/-- Collaborator invocations of one hair turn, in order. -/
inductive HEvent where
  | availability (salon : Int) (service : Option Int) (date : String)
  | listServices (salon : Int)
  | createBooking (salon : Int) (service : Option Int) (timeId : Option Int)
  | cancelBooking (salon : Int) (bookingId : Int)
  | emailSend (recipient : String)
  | emailEnqueue (recipient : String)
  | smsSend (phone : String)
  deriving DecidableEq, Repr

/-- A turn reply: the bare `jsonify({"response": ""})` of a non-final
turn, a `_reply(...)` payload, or an uncaught exception (HTTP 500). -/
inductive HOut where
  | plain (response : String)
  | rep (response action : String) (require_user : Bool) (ok : Option Bool)
  | crash
  deriving DecidableEq, Repr

/-- hair._pick_service_id's `short_kw` lexicon. -/
def short_kw : List String :=
  ["fade", "skin fade", "zero fade", "low fade", "mid fade", "high fade", "taper",
   "taper fade",
   "buzz", "buzzcut", "buzz cut", "crew", "crew cut", "undercut", "pompadour", "quiff",
   "crop", "french crop", "ivy league", "flat top", "caesar",
   "kort", "maskin", "sidorna kort", "kort på sidorna", "barber", "barbershop",
   "skägg", "skäggtrim", "skägg trimm", "line up", "shape up", "kantlinje", "rakning",
   "kant", "hårlinje", "nacke", "nacksyning", "tinning", "tinningar",
   "pojke", "killklipp", "herrklipp", "herr", "barberare"]

/-- hair._pick_service_id's `long_kw` lexicon. -/
def long_kw : List String :=
  ["lång", "långt", "tjockt", "tjock", "uppklippt", "uppklippta", "lugg", "gardinlugg",
   "layers", "layer", "skikt", "frans", "fringe",
   "föhn", "föna", "blowout", "föning", "styling",
   "balayage", "slingor", "folieslingor", "ombre", "toning", "färg", "blekning",
   "tunt", "uttynning", "tunna ur", "klippa toppar", "toppning", "klippa slitna toppar",
   "damklipp", "dame", "dam", "tjejklipp", "fön", "uppsättning", "brud",
   "bruduppsättning",
   "permanent", "keratin", "olaplex", "inpackning"]

def kwAnyIn (kws : List String) (t : List Char) : Bool :=
  kws.any (fun kw => pySubstr kw.data t)

/-- hair._pick_service_id.  The boolean reports whether the fuzzy
fallback consulted `ADAPTER.list_services` (an adapter call). -/
def pick_service_id (env : HairEnv) (text : String) :
    (Option Int × Option String) × Bool :=
  let t := pyLowerStr text.data
  if kwAnyIn short_kw t then ((some 301, some "Klippning kort hår"), false)
  else if kwAnyIn long_kw t then
    ((some 298, some "Klippning rek. Långt och tjockt hår"), false)
  else if kwAnyIn ["klipp", "klippa", "klippa mig", "klippning"] t then
    if kwAnyIn ["kort", "fade", "taper", "buzz", "herr"] t then
      ((some 301, some "Klippning kort hår"), false)
    else ((some 298, some "Klippning rek. Långt och tjockt hår"), false)
  else
    -- fuzzy fallback against the catalog's display names; difflib's
    -- get_close_matches followed by names.index is the oracle
    -- `closeMatch`, which returns an index into the list it was given
    let names := env.services.map (fun s => (⟨pyLowerStr s.sname.data⟩ : String))
    match env.closeMatch ⟨t⟩ names with
    | some i =>
      match env.services.drop i with
      | s :: _ => ((some s.sid, some s.sname), true)
      | [] => ((none, none), true)
    | none => ((none, none), true)

/-- Python slicing `s[a:b]` on strings. -/
def pySlice (s : String) (a b : Nat) : String := ⟨(s.data.drop a).take (b - a)⟩

/-- `_to_minutes("HH:MM")` inside `_pick_time_id`; `none` models the
`ValueError` that `int()` raises on a malformed piece. -/
def toMinutes (hhmm : String) : Option Nat :=
  match pySplitSpace (pyReplace hhmm.data ":".data " ".data) with
  | [h, m] =>
    if h ≠ [] && h.all pyIsDigit && m ≠ [] && m.all pyIsDigit then
      some ((h.foldl (fun a c => a * 10 + digitVal c) 0) * 60
            + m.foldl (fun a c => a * 10 + digitVal c) 0)
    else none
  | _ => none

/-- hair's ordinal word map, in dict insertion order. -/
def ordMap : List (String × Nat) :=
  [("första", 0), ("andra", 1), ("tredje", 2), ("fjärde", 3), ("femte", 4), ("sjätte", 5)]

/-- The nearest-future-slot scoring loop of `_pick_time_id`:
keeps the first slot with a strictly smaller score. -/
def pickNearest (slots : List AvailSlot) (wantM : Nat) :
    Except Unit (Option Int) := do
  let mut best : Option Int := none
  let mut bestDiff : Option Int := none
  for s in slots do
    if s.start ≠ "" then
      match toMinutes (pySlice s.start 11 16) with
      | none => throw ()        -- int() ValueError propagates
      | some slotM =>
        let diff : Int := (slotM : Int) - (wantM : Int)
        let score : Int := if diff ≥ 0 then diff else -diff + 10000
        match bestDiff with
        | none =>
          best := some s.timeId
          bestDiff := some score
        | some bd =>
          if score < bd then
            best := some s.timeId
            bestDiff := some score
  return best

/-- hair._pick_time_id. -/
def pick_time_id (userText : String) (slots : List AvailSlot) :
    Except Unit (Option Int) := do
  if slots = [] then return none
  let txt := pyLowerStr userText.data
  -- 1) ordinal pick
  match firstSome (ordMap.map (fun w =>
      if pySubstr w.1.data txt && w.2 < slots.length then
        some ((slots.drop w.2).head?.map (fun s => s.timeId))
      else none)) with
  | some r => return some (r.getD 0)
  | none =>
  -- 2) "any slot"
  if pySubstr "vilken som helst".data txt || pySubstr "spelar ingen roll".data txt
      || pySubstr "ta första".data txt then
    return some ((slots.head?.map (fun s => s.timeId)).getD 0)
  -- 3) desired time
  match parse_time_from_text userText with
  | none => return none
  | some want =>
    match slots.find? (fun s => s.start ≠ "" && pySlice s.start 11 16 = want) with
    | some s => return some s.timeId
    | none =>
      match toMinutes want with
      | none => throw ()
      | some wantM => pickNearest slots wantM

/-- hair._format_slots_for_prompt. -/
def format_slots_for_prompt (slots : List AvailSlot) : String :=
  if slots = [] then "Inga lediga tider hittades."
  else
    let times := (slots.filter (fun s => s.start ≠ "")).map (fun s => pySlice s.start 11 16)
    let times := times.filter (fun t => t ≠ "")
    if times = [] then "Inga lediga tider hittades."
    else
      let times := if times.length > 6 then times.take 6 else times
      match times with
      | [t] => "Jag har " ++ t ++ "."
      | _ =>
        "Tillgängliga tider: "
        ++ String.intercalate ", " (times.take (times.length - 1))
        ++ " och " ++ (times.getLast? |>.getD "") ++ "."

/-- hair._yes. -/
def yes_intent (text : String) : Bool :=
  let t : String := ⟨pyLowerStr (pyStripWs text.data)⟩
  if ["a", "aa", "aaa", "ok", "okej", "yes", "j", "mm", "👍", "👌", "✅", "✔️"].contains t
  then true
  else
    ["ja", "japp", "jo", "okej", "okey", "yes", "yep", "yup", "kör", "kör på", "boka",
     "boka den", "ta den", "den blir bra", "det blir bra", "låter bra", "sounds good",
     "absolut", "kör igång", "kör då"].any (fun w => pySubstr w.data t.data)

/-- hair._no. -/
def no_intent (text : String) : Bool :=
  let t : String := ⟨pyLowerStr (pyStripWs text.data)⟩
  ["nej", "no", "inte", "avbryt", "ändra", "vill inte", "nej tack", "skippa", "byt",
   "ta annan", "inte den", "fel", "nää", "nä", "nope", "✖️", "🚫"].any
    (fun w => pySubstr w.data t.data)

/-- Python `str(n)` for the ints stored as booking ids. -/
def pyStrOfInt (n : Int) : String := toString n

/-- Python `int(s)` for the digit strings (with an optional sign) that
reach it in hair.py; these never raise there. -/
def pyIntOfStr (s : String) : Int :=
  match s.data with
  | '-' :: ds => - (ds.foldl (fun a c => a * 10 + digitVal c) 0 : Nat)
  | ds => (ds.foldl (fun a c => a * 10 + digitVal c) 0 : Nat)

/-- hair._ready_to_book: `bool(service_id and time_id and email)`. -/
def ready_to_book (st : HSess) : Bool :=
  tOptInt st.service_id && tOptInt st.time_id && tOptStr st.email

/-- hair._do_booking: create the booking, send the confirmation e-mail
(falling back to the outbox queue), fire the SMS thread, and mark the
session.  The Customer payload handed to the adapter (with its
`"kund@example.com"` default e-mail) is an argument of the collaborator
and not otherwise observable, so it is not modelled beyond the call
event.  An adapter exception is uncaught here (`.crash`). -/
def do_booking (env : HairEnv) (st : HSess) (salon : Int) :
    HSess × HOut × List HEvent :=
  let ev0 := HEvent.createBooking salon st.service_id st.time_id
  match env.create salon st.service_id st.time_id with
  | .raises => (st, .crash, [ev0])
  | .err =>
    (st, .rep "Det gick inte att boka just nu. Vill du prova en annan tid?" "info" true
      (some false), [ev0])
  | .ok b =>
    let msg := "Klart! Jag bokade " ++ b.service_name ++ " " ++ pySlice b.start 0 10
      ++ " kl " ++ pySlice b.start 11 16 ++ ". Boknings-ID: " ++ pyStrOfInt b.bid ++ "."
      ++ env.humor
    let (msg, evE) :=
      if tOptStr st.email then
        let toE := st.email.getD ""
        if env.emailOk then
          (msg ++ " Jag skickade en bekräftelse till " ++ toE ++ ".",
           [HEvent.emailSend toE])
        else if env.enqueueOk then
          (msg ++ " Jag kunde inte skicka direkt, men jag försöker igen strax.",
           [HEvent.emailSend toE, HEvent.emailEnqueue toE])
        else (msg, [HEvent.emailSend toE, HEvent.emailEnqueue toE])
      else (msg, [])
    let evS :=
      if tOptOptStr st.phone then [HEvent.smsSend ((st.phone.getD none).getD "")] else []
    let st := {st with booking_id := some (pyStrOfInt b.bid),
                       awaiting_confirm := some false, done := some true}
    (st, .rep msg "book" false (some true), ev0 :: evE ++ evS)

/-- hair._do_reschedule: cancel the old booking, then rebook the same
service at the new time (two separate collaborator calls); exceptions
are caught and turned into the apologetic pair. -/
def do_reschedule (env : HairEnv) (st : HSess) (salon bookingId newTimeId : Int) :
    (Bool × String) × HSess × List HEvent :=
  let ev0 := HEvent.cancelBooking salon bookingId
  match env.cancel salon bookingId with
  | .raises =>
    ((false,
      "Hoppsan, något gick snett när jag försökte flytta tiden. Vill du prova en annan tid?"),
     st, [ev0])
  | .notFound =>
    ((false, "Tyvärr, jag hittade ingen bokning med ID " ++ pyStrOfInt bookingId
      ++ ". Kan du dubbelkolla numret?"), st, [ev0])
  | .ok rec =>
    let sidOpt := if tOptInt rec.service_id then rec.service_id else st.service_id
    if ¬ tOptInt sidOpt then
      ((false,
        "Jag saknar vilken behandling det var – kan du säga vilken behandling du vill behålla?"),
       st, [ev0])
    else
      let ev1 := HEvent.createBooking salon sidOpt (some newTimeId)
      match env.create salon sidOpt (some newTimeId) with
      | .raises =>
        ((false,
          "Hoppsan, något gick snett när jag försökte flytta tiden. Vill du prova en annan tid?"),
         st, [ev0, ev1])
      | .err =>
        ((false, "Det gick inte att boka den nya tiden. Vill du prova en annan?"),
         st, [ev0, ev1])
      | .ok b =>
        ((true, "Klart! Jag flyttade din tid till " ++ pySlice b.start 0 10 ++ " kl "
          ++ pySlice b.start 11 16 ++ " (ID: " ++ pyStrOfInt b.bid ++ ")." ++ env.humor),
         {st with booking_id := some (pyStrOfInt b.bid)}, [ev0, ev1])

/-- The punctuation set stripped from the normalized e-mail source in
hair_process_input (`" ,;:!?)\"]}<>(“”’‘"`; the brace numerically). -/
def emailCandTrimSet : List Char :=
  [' ', ',', ';', ':', '!', '?', ')', '"', ']', Char.ofNat 125, '<', '>', '(',
   '“', '”', '’', '‘']

/-- The confirmation question built in hair_process_input. -/
def confirmQuestion (st : HSess) (hhmm : String) : String :=
  "Vill du att jag bokar " ++ (st.service_name.getD "") ++ " kl " ++ hhmm
  ++ " och skickar bekräftelsen till " ++ (st.email.getD "") ++ "?"

/-- The tail of hair_process_input from `---- ASK NEXT MISSING SLOT ----`
on (also reached by the fall-through of the slot-mapping block). -/
def hairAskChain (env : HairEnv) (st : HSess) (salon : Int) (dateIso text : String) :
    HSess × HOut × List HEvent :=
  if ¬ tOptStr st.name then (st, .rep "Vad heter du?" "ask" true none, [])
  else if ¬ tOptOptStr st.phone then
    ({st with phone_confirmed := some false},
     .rep "Vad är ditt telefonnummer?" "ask" true none, [])
  else if ¬ tOptStr st.email then
    (st, .rep "Alright, och vad var din e-postadress?" "ask" true none, [])
  else if ¬ tOptInt st.service_id then
    let names := (env.services.map (fun s => s.sname)).take 5
    (st, .rep ("Vilken behandling vill du ha? Exempel: " ++ String.intercalate " / " names)
      "ask" true none, [HEvent.listServices salon])
  else if ¬ tOptInt st.time_id then
    let slots := env.avail salon st.service_id dateIso
    let evA := [HEvent.availability salon st.service_id dateIso]
    match pick_time_id text slots with
    | .error _ => (st, .crash, evA)
    | .ok (some v) =>
      let slotF := slots.find? (fun s => s.timeId = v)
      let st := {st with time_id := some v, slot := some slotF}
      if ready_to_book st && ¬ no_intent text then
        let (st2, out, evB) := do_booking env st salon
        (st2, out, evA ++ evB)
      else
        let hhmm := match slotF with
          | some sl => pySlice sl.start 11 16
          | none => ""
        let st := {st with awaiting_confirm := some true}
        (st, .rep (confirmQuestion st hhmm) "ask" true none, evA)
    | .ok none =>
      if slots = [] then
        (st, .rep "Jag hittar inga tider idag. Vill du prova ett annat datum?" "ask" true
          none, evA)
      else (st, .rep (format_slots_for_prompt slots) "ask" true none, evA)
  else if ¬ tOptBool st.awaiting_confirm then
    let st := {st with awaiting_confirm := some true}
    let hhmm := match st.slot.getD none with
      | some sl => pySlice sl.start 11 16
      | none => ""
    (st, .rep (confirmQuestion st hhmm ++ " Svara ja eller nej.") "ask" true none, [])
  else do_booking env st salon

/-- The hair request body (`/hair/api/process_input`); `conv_id`,
`salon_id`, `date` and `is_final` carry their parsed defaults. -/
structure HairReq where
  text : String
  conv_id : String := "local"
  salon_id : Int := 97
  date : Option String := none
  is_final : Bool := true

/-- The resolved conversation id of a hair request
(`(data.get("conv_id") or "local").strip()`). -/
def hairCid (req : HairReq) : String :=
  ⟨pyStripWs (if req.conv_id = "" then "local" else req.conv_id).data⟩

/-- The stripped text of a hair request. -/
def hairText (req : HairReq) : String := ⟨pyStripWs req.text.data⟩

/-- The `FINAL CONFIRMATION BRANCH` of hair_process_input: a clear "no"
backs out and re-offers availability; anything else books now. -/
def hairConfirmPhase (env : HairEnv) (st : HSess) (salon : Int) (dateIso text : String) :
    HSess × HOut × List HEvent :=
  if no_intent text then
    let st := {st with awaiting_confirm := some false}
    let slots := env.avail salon st.service_id dateIso
    (st,
     .rep ("Okej, vi bokar inte den. Vilken tid passar istället? "
       ++ format_slots_for_prompt slots) "ask" true none,
     [HEvent.availability salon st.service_id dateIso])
  else do_booking env st salon

/-- hair_process_input after the confirmation branch: the reschedule and
cancel intent handlers, slot filling, slot mapping and the
ask-next-missing-slot chain. -/
def hairMainPhase (env : HairEnv) (st : HSess) (salon : Int) (dateIso text : String) :
    HSess × HOut × List HEvent :=
  let wantResched := resched_intent text || tOptBool st.awaiting_resched
  if wantResched then
    -- ---- RESCHEDULE INTENT HANDLER ----
    let bkid := extract_booking_id text
    let st :=
      if ¬ tOptStr st.booking_id then
        match bkid with
        | some b => {st with booking_id := some b}
        | none => st
      else st
    let newDate := (parse_relative_date text env.today).getD dateIso
    let wantHhmm := parse_time_from_text text
    if ¬ tOptStr st.booking_id then
      ({st with awaiting_resched := some true},
       .rep "Självklart! Vad är ditt boknings-ID så flyttar jag tiden?" "ask" true none,
       [])
    else if wantHhmm = none then
      ({st with awaiting_resched := some true},
       .rep "Vilken tid vill du flytta till (t.ex. 15:30 eller 'första lediga på fredag')?"
         "ask" true none, [])
    else
      let lookupSid := if tOptInt st.service_id then st.service_id.getD 0 else 301
      let slots := env.avail salon (some lookupSid) newDate
      let evA := [HEvent.availability salon (some lookupSid) newDate]
      match pick_time_id text slots with
      | .error _ => (st, .crash, evA)
      | .ok none =>
        ({st with awaiting_resched := some true},
         .rep ("Jag hittade inga exakta träffar. " ++ format_slots_for_prompt slots
           ++ " Vilken av dem vill du ha?") "ask" true none, evA)
      | .ok (some tid) =>
        let r := do_reschedule env st salon (pyIntOfStr (st.booking_id.getD "")) tid
        let st2 := {r.2.1 with awaiting_resched := some false}
        (st2,
         .rep r.1.2 (if r.1.1 then "book" else "info") (¬ r.1.1) (some r.1.1),
         evA ++ r.2.2)
  else
    let bkid := extract_booking_id text
    let wantCancel := cancel_intent text || tOptBool st.awaiting_bkid
    if wantCancel then
      -- ---- CANCEL INTENT HANDLER ----
      match bkid with
      | none =>
        ({st with awaiting_bkid := some true},
         .rep "Självklart! Vad är ditt boknings-ID så fixar jag avbokningen?" "ask" true
           none, [])
      | some b =>
        let st := {st with awaiting_bkid := some false}
        let salonLocal :=
          if tOptInt st.salon_id then st.salon_id.getD 0
          else if salon ≠ 0 then salon else 97
        let ev := [HEvent.cancelBooking salonLocal (pyIntOfStr b)]
        match env.cancel salonLocal (pyIntOfStr b) with
        | .ok _ =>
          (st, .rep ("Klart! Jag avbokade din tid (ID " ++ b
            ++ "). Vill du boka något annat?" ++ env.humor) "info" true (some true), ev)
        | .notFound =>
          (st, .rep ("Tyvärr, jag hittade ingen bokning med ID " ++ b
            ++ ". Kan du dubbelkolla numret?") "ask" true (some false), ev)
        | .raises =>
          (st, .rep "Hoppsan, något gick snett när jag försökte avboka. Vill du prova igen?"
            "ask" true (some false), ev)
    else
      -- ---- TRY FILL SLOTS FROM THIS TURN ----
      let st :=
        if ¬ tOptStr st.name then
          match extract_name text with
          | some n => {st with name := some n}
          | none => st
        else st
      let st :=
        if ¬ tOptOptStr st.phone then
          let tLow := pyLowerStr text.data
          if ["ingen".data, "utan nummer".data, "har ingen".data].any
              (fun kw => pySubstr kw tLow) then
            {st with phone := some none, phone_confirmed := some false}
          else
            match extract_phone text with
            | some p => {st with phone := some (some p), phone_confirmed := some true}
            | none => st
        else st
      let st :=
        if ¬ tOptStr st.email then
          let eRaw := (parse_email text).getD ""
          let cands := if eRaw ≠ "" then [eRaw] else []
          let normSrc : String :=
            ⟨pyStripChars emailCandTrimSet
              (pyLowerStr (pyStripWs (normalize_spelled_email text).data))⟩
          let eNorm := (parse_email normSrc).getD ""
          let cands := cands ++ (if eNorm ≠ "" then [eNorm] else [])
          match cands.find? (fun c => emailFullMatch c.data) with
          | some chosen => {st with email := some chosen}
          | none => st
        else st
      let pickRes :=
        if ¬ tOptInt st.service_id then some (pick_service_id env text) else none
      let st :=
        match pickRes with
        | some ((some v, sname), _) =>
          if v ≠ 0 then {st with service_id := some v, service_name := sname} else st
        | _ => st
      let evP :=
        match pickRes with
        | some (_, true) => [HEvent.listServices salon]
        | _ => ([] : List HEvent)
      -- map the utterance onto a live slot when service is known
      if tOptInt st.service_id && ¬ tOptInt st.time_id then
        let slots := env.avail salon st.service_id dateIso
        let evA := evP ++ [HEvent.availability salon st.service_id dateIso]
        match pick_time_id text slots with
        | .error _ => (st, .crash, evA)
        | .ok tidOpt =>
          let slotF := match tidOpt with
            | some v => slots.find? (fun s => s.timeId = v)
            | none => none
          match slotF with
          | some sl =>
            let st := {st with time_id := tidOpt, slot := some (some sl)}
            if ready_to_book st && ¬ no_intent text then
              let (st2, out, evB) := do_booking env st salon
              (st2, out, evA ++ evB)
            else
              let hhmm := pySlice sl.start 11 16
              let st := {st with awaiting_confirm := some true}
              (st, .rep (confirmQuestion st hhmm) "ask" true none, evA)
          | none =>
            let (st2, out, evC) := hairAskChain env st salon dateIso text
            (st2, out, evA ++ evC)
      else
        let (st2, out, evC) := hairAskChain env st salon dateIso text
        (st2, out, evP ++ evC)

/-- hair.hair_process_input, one turn over the keyed session store. -/
def hairStep (env : HairEnv) (store : String → Option HSess) (req : HairReq) :
    (String → Option HSess) × HOut × List HEvent :=
  let cid : String := hairCid req
  let text : String := hairText req
  let dateIso := match req.date with
    | some d => if d ≠ "" then d else env.todayStr
    | none => env.todayStr
  if ¬ req.is_final then (store, .plain "", [])
  else
    let st0 : HSess := (store cid).getD {}
    let st := {st0 with salon_id := some req.salon_id}
    let put := fun (s : HSess) (c : String) => if c = cid then some s else store c
    if text = "" then
      (put st, .rep "Säg något så hjälper jag dig boka." "ask" true none, [])
    else
      let r :=
        if tOptBool st.awaiting_confirm then
          hairConfirmPhase env st req.salon_id dateIso text
        else hairMainPhase env st req.salon_id dateIso text
      (put r.1, r.2.1, r.2.2)

/-! ## app.py — dental session, gates and the main input route -/

/-- The dental slot dictionary.  `REQUIRED_SLOTS` are name, email, date,
time, treatment; `phone` is read by the booking payload but no dental
code path ever sets it. -/
structure DSlots where
  name : Option String := none
  email : Option String := none
  date : Option String := none
  time : Option String := none
  treatment : Option String := none
  phone : Option String := none
  deriving DecidableEq, Repr

/-- The per-session `"bankid"` sub-dictionary of app.process_input. -/
structure BankidState where
  orderRef : Option String := none
  asked : Bool := false
  last_prompt : Nat := 0
  deriving DecidableEq, Repr

/-- One dental session (`SESSION[cid]` of app.py).  `bankid` is `none`
when the key is absent: the defaults used by `session_reset`,
`set_slot`, `mark_verified` and `bankid_verify_and_mark` lack the
`"bankid"` key, and reading it then raises `KeyError`. -/
structure DSess where
  slots : DSlots := {}
  verified : Bool := false
  last_tool : Option String := none
  created_booking : Bool := false
  bankid : Option BankidState := none
  deriving DecidableEq, Repr

/-- The default session value used by `process_input`'s `setdefault`
(the only one carrying the `"bankid"` key). -/
def dDefaultFull : DSess := { bankid := some {} }

/-- app.session_reset: the reset value has no `"bankid"` key. -/
def session_reset (store : String → Option DSess) (cid : String) :
    String → Option DSess :=
  fun c => if c = cid then some {} else store c

/-- app.session_end. -/
def session_end (store : String → Option DSess) (cid : String) :
    String → Option DSess :=
  fun c => if c = cid then none else store c

/-- app.set_slot's guard: the value is stored only when it is neither
`None` nor `""` (callers always pass strings here). -/
def slotPut (old : Option String) (v : String) : Option String :=
  if v ≠ "" then some v else old

/-- app.slots_ready: all five required slots truthy. -/
def slots_ready (s : DSlots) : Bool :=
  tOptStr s.name && tOptStr s.email && tOptStr s.date && tOptStr s.time
    && tOptStr s.treatment

/-- app.booking_allowed. -/
def booking_allowed (sess : DSess) : Bool :=
  sess.verified && ¬ sess.created_booking && slots_ready sess.slots

/-- Match of the name pattern
`\b(jag heter|mitt namn är)\s+([A-Za-zÅÄÖåäö\- ]+)` at a position
(no IGNORECASE in app.py); returns the second group. -/
def dNameCls (c : Char) : Bool :=
  ('A' ≤ c && c ≤ 'Z') || ('a' ≤ c && c ≤ 'z')
  || c = 'Å' || c = 'Ä' || c = 'Ö' || c = 'å' || c = 'ä' || c = 'ö'
  || c = '-' || c = ' '

def dNamePatAt (s : List Char) (i : Nat) : Option (List Char) :=
  if ¬ boundaryAt s i then none
  else
    match firstSome [litAt s i "jag heter".data, litAt s i "mitt namn är".data] with
    | none => none
    | some j =>
      match wsRun1 s j with
      | none => none
      | some k =>
        let run := clsRunLen s dNameCls k
        if run ≥ 1 then some ((s.drop k).take run) else none

/-- Match of the treatment pattern
`\b(undersökning|akut|hygienist|kontroll|blekning)\b` at a position. -/
def dTreatPatAt (s : List Char) (i : Nat) : Option (List Char) :=
  if ¬ boundaryAt s i then none
  else
    firstSome (["undersökning".data, "akut".data, "hygienist".data, "kontroll".data,
      "blekning".data].map (fun lit =>
        match litAt s i lit with
        | some j => if boundaryAt s j then some lit else none
        | none => none))

/-- `\d{n}` at a position: the end when exactly `n` digits follow. -/
def digitsAt (s : List Char) (i n : Nat) : Option Nat :=
  if ((s.drop i).take n).length = n && ((s.drop i).take n).all pyIsDigit then
    some (i + n)
  else none

/-- One alternative `\d{a}[- ]?\d{4}\b` of PNR_RE (greedy on the
optional separator). -/
def pnrAltAt (s : List Char) (i a : Nat) : Option Nat :=
  match digitsAt s i a with
  | none => none
  | some j =>
    let withSep :=
      match nthc s j with
      | some c =>
        if c = '-' || c = ' ' then
          match digitsAt s (j + 1) 4 with
          | some e => if boundaryAt s e then some e else none
          | none => none
        else none
      | none => none
    match withSep with
    | some e => some e
    | none =>
      match digitsAt s j 4 with
      | some e => if boundaryAt s e then some e else none
      | none => none

/-- Match of app.PNR_RE `\b(\d{6}[- ]?\d{4}|\d{8}[- ]?\d{4})\b` at a
position; returns the matched text. -/
def pnrPatAt (s : List Char) (i : Nat) : Option (List Char) :=
  if ¬ boundaryAt s i then none
  else
    match firstSome [pnrAltAt s i 6, pnrAltAt s i 8] with
    | some e => some ((s.drop i).take (e - i))
    | none => none

/-- app._clean_personnummer. -/
def clean_personnummer (s : String) : Option String :=
  if s.data = [] then none
  else
    let digits := s.data.filter pyIsDigit
    let digits :=
      if digits.length = 10 then
        (if (digits.head?.getD '0') ∈ ['6', '7', '8', '9'] then "19".data else "20".data)
          ++ digits
      else digits
    if digits.length = 12 then some ⟨digits⟩ else none

/-- The booking payload `process_input` sends to
`create_booking_via_portal_verified`. -/
structure DPayload where
  clinic : String
  name : String
  email : String
  phone : Option String
  date : String
  time : String
  treatment : String
  deriving DecidableEq, Repr

/-- Collaborator invocations of one dental turn. -/
inductive DEvent where
  | bankidStart (pnr : String)
  | bankidStatus (orderRef : String)
  | bookVerified (payload : DPayload)
  deriving DecidableEq, Repr

/-- Reply of one dental turn: a structured error, a normal reply (the
wrapper adds `end_turn`), or an uncaught exception. -/
inductive DOutCore where
  | httpError (code : Nat) (msg : String)
  | replyText (response : String)
  | crash
  deriving DecidableEq, Repr

/-- The dental turn's external world: the GPT repair filter (its
try/except means a failure behaves as the identity, which the oracle can
encode), today's date, the CLINIC tag, and the BankID / portal
collaborators.  `bankidStart` returns the `(ok, orderRef)` pair of
`_bankid_start_local`, `bankidStatus` the `(ok, status)` pair of
`_bankid_status_local`, `portal` the `(ok, info)` pair of
`create_booking_via_portal_verified`. -/
structure DentalEnv where
  repair : String → String
  today : Nat
  clinic : String
  bankidStart : String → Bool × String
  bankidStatus : String → Bool × String
  portal : DPayload → Bool × String

/-- The dental request body (`/process_input`); `is_final` defaults to
false (`bool(data.get("is_final"))`), `conv_id` is the resolved
conversation id chain. -/
structure DReq where
  text : String
  conv_id : String := "local"
  is_final : Bool := false

/-- The "extract date/time if casually mentioned" slot updates at the
top of process_input. -/
def dFillDT (sess : DSess) (d tm : Option String) : DSess :=
  let sess :=
    if d.isSome && ¬ tOptStr sess.slots.date then
      {sess with slots := {sess.slots with date := slotPut sess.slots.date (d.getD "")}}
    else sess
  if tm.isSome && ¬ tOptStr sess.slots.time then
    {sess with slots := {sess.slots with time := slotPut sess.slots.time (tm.getD "")}}
  else sess

/-- The `COLLECT MANDATORY SLOTS in fixed order` chain of
app.process_input: `some (session, reply)` when one of the five slot
branches replies (no collaborator is called there), `none` when all
required slots are already present and control falls through to the
BankID gate. -/
def dentalSlotPhase (cd : List Char) (d tm : Option String) (sess : DSess) :
    Option (DSess × DOutCore) :=
  if ¬ tOptStr sess.slots.name then some (
    match reSearch cd (dNamePatAt cd) with
    | some g =>
      let sess :=
        {sess with slots := {sess.slots with name := slotPut sess.slots.name ⟨pyStripWs g⟩}}
      (sess, .replyText ("Tack " ++ (sess.slots.name.getD "")
        ++ ". Vilken e-post vill du använda?"))
    | none => (sess, .replyText "Vad heter du?"))
  else if ¬ tOptStr sess.slots.email then some (
    match reSearch cd (fun i => (emailMatchAt cd i).map (fun e => (i, e))) with
    | some (i, e) =>
      ({sess with slots :=
        {sess.slots with email := slotPut sess.slots.email ⟨(cd.drop i).take (e - i)⟩}},
       .replyText "Tack! Vilken behandling gäller det?")
    | none =>
      (sess, .replyText "Bokstavera din e-post, säg 'snabel-a' för @ och 'punkt' för ."))
  else if ¬ tOptStr sess.slots.treatment then some (
    match reSearch cd (dTreatPatAt cd) with
    | some t =>
      ({sess with slots := {sess.slots with treatment := slotPut sess.slots.treatment ⟨t⟩}},
       .replyText "Vilket datum vill du komma? Säg t.ex. 2025-09-01.")
    | none =>
      (sess, .replyText "Vilken behandling vill du boka? (t.ex. undersökning, akut, hygienist)"))
  else if ¬ tOptStr sess.slots.date then some (
    match d with
    | some dv =>
      ({sess with slots := {sess.slots with date := slotPut sess.slots.date dv}},
       .replyText "Vilken tid passar? (t.ex. 10:00)")
    | none => (sess, .replyText "Vilket datum vill du komma? Säg t.ex. 2025-09-01."))
  else if ¬ tOptStr sess.slots.time then some (
    match tm with
    | some tv =>
      ({sess with slots := {sess.slots with time := slotPut sess.slots.time tv}},
       .replyText "Toppen. Jag behöver verifiera dig med BankID.")
    | none => (sess, .replyText "Vilken tid passar? (t.ex. 10:00)"))
  else none

/-- The `BANKID GATE (mandatory before booking)` block of
app.process_input (taken when `verified` is false). -/
def dentalGatePhase (env : DentalEnv) (cd : List Char) (sess : DSess) :
    DSess × DOutCore × List DEvent :=
  match sess.bankid with
  | none => (sess, .crash, [])   -- KeyError: the session lacks "bankid"
  | some bank =>
    if ¬ tOptStr bank.orderRef then
      match reSearch cd (pnrPatAt cd) with
      | some raw =>
        match clean_personnummer ⟨raw⟩ with
        | some pnr =>
          let res := env.bankidStart pnr
          if res.1 && res.2 ≠ "" then
            ({sess with bankid := some {bank with orderRef := some res.2, asked := true}},
             .replyText
               "Startar BankID. Öppna din BankID-app och godkänn – säg till när du är klar.",
             [DEvent.bankidStart pnr])
          else
            (sess,
             .replyText "Kunde inte starta BankID just nu. Vill du att jag försöker igen?",
             [DEvent.bankidStart pnr])
        | none =>
          (sess,
           .replyText "Jag behöver hela personnumret, tolv siffror. Säg det långsamt tack.",
           [])
      | none =>
        (sess,
         .replyText
           "För att boka behöver jag verifiera dig med BankID. Säg ditt personnummer, tolv siffror.",
         [])
    else
      let oref := bank.orderRef.getD ""
      let res := env.bankidStatus oref
      if res.1 && res.2 = "complete" then
        ({sess with verified := true},
         .replyText "Tack, du är verifierad. Jag bokar din tid nu.",
         [DEvent.bankidStatus oref])
      else if ¬ res.1 || res.2 = "failed" then
        ({sess with bankid := some {bank with orderRef := none}},
         .replyText "Det blev fel med BankID. Vill du försöka igen?",
         [DEvent.bankidStatus oref])
      else
        (sess, .replyText "Ett ögonblick… jag kollar din BankID-status.",
         [DEvent.bankidStatus oref])

/-- The `BOOKING (only AFTER verified)` block of app.process_input
(taken when `booking_allowed` holds). -/
def dentalBookPhase (env : DentalEnv) (sess : DSess) : DSess × DOutCore × List DEvent :=
  let payload : DPayload :=
    { clinic := env.clinic,
      name := sess.slots.name.getD "",
      email := sess.slots.email.getD "",
      phone := sess.slots.phone,
      date := sess.slots.date.getD "",
      time := sess.slots.time.getD "",
      treatment := sess.slots.treatment.getD "" }
  let res := env.portal payload
  if res.1 then
    ({sess with created_booking := true},
     .replyText ("Klart! Jag bokade " ++ payload.treatment ++ " " ++ payload.date
       ++ " " ++ payload.time ++ ". Bokningsnummer " ++ res.2
       ++ ". Behöver du något mer?"),
     [DEvent.bookVerified payload])
  else if res.2 = "duplicate_attempt" then
    (sess,
     .replyText "Jag har redan registrerat den bokningen nyss. Vill du ändra något?",
     [DEvent.bookVerified payload])
  else
    (sess,
     .replyText "Jag försökte boka men något gick fel. Vill du att jag försöker igen?",
     [DEvent.bookVerified payload])

/-- app.process_input without the `end_turn` flag (which is the only
thing `is_final` influences).  Returns the updated store, the reply and
the collaborator calls, in order. -/
def dentalTurnCore (env : DentalEnv) (store : String → Option DSess) (req : DReq) :
    (String → Option DSess) × DOutCore × List DEvent :=
  let cid := req.conv_id
  let sess0 := (store cid).getD dDefaultFull
  let put := fun (s : DSess) (c : String) => if c = cid then some s else store c
  let store1 := put sess0
  let textIn : String := ⟨pyStripWs req.text.data⟩
  if textIn = "" then (store1, .httpError 400 "No text", [])
  else
    let corrected := normalize_spelled_email (env.repair textIn)
    let cd := corrected.data
    match parse_sv_date_time corrected env.today with
    | .error _ => (store1, .crash, [])
    | .ok (d, tm) =>
      let sess := dFillDT sess0 d tm
      match dentalSlotPhase cd d tm sess with
      | some r => (put r.1, r.2, [])
      | none =>
        if ¬ sess.verified then
          let r := dentalGatePhase env cd sess
          (put r.1, r.2.1, r.2.2)
        else if booking_allowed sess then
          let r := dentalBookPhase env sess
          (put r.1, r.2.1, r.2.2)
        else (put sess, .replyText ("Jag hörde: " ++ corrected), [])

/-- Reply of the full dental turn, with `end_turn` (the only use of
`is_final`). -/
inductive DOut where
  | httpError (code : Nat) (msg : String)
  | reply (response : String) (end_turn : Bool)
  | crash
  deriving DecidableEq, Repr

/-- app.process_input. -/
def dentalTurn (env : DentalEnv) (store : String → Option DSess) (req : DReq) :
    (String → Option DSess) × DOut × List DEvent :=
  let r := dentalTurnCore env store req
  (r.1,
   (match r.2.1 with
    | .httpError c m => .httpError c m
    | .replyText t => .reply t req.is_final
    | .crash => .crash),
   r.2.2)

/-- app.mark_verified (`/conv/mark_verified`): `conv_id` is the raw
resolved id before stripping. -/
def mark_verified (store : String → Option DSess) (cidRaw : String) :
    (String → Option DSess) × Bool :=
  let cid : String := ⟨pyStripWs cidRaw.data⟩
  if cid = "" then (store, false)
  else
    let sess := (store cid).getD {}       -- setdefault without "bankid"
    ((fun c => if c = cid then some {sess with verified := true} else store c), true)

/-- The outcome of app.bankid_verify_and_mark's start call and its
bounded polling loop (both against the excluded BankID portal):
`startRef` is `none` when the start fails (502 path), `finalStatus` the
status the 12 × 2 s polling loop ends with. -/
structure VamEnv where
  startRef : Option String
  finalStatus : String

/-- app.bankid_verify_and_mark (`/bankid/verify_and_mark`): marks the
session verified only when the bounded polling ends `complete`. -/
def bankid_verify_and_mark (store : String → Option DSess) (convIdRaw pnRaw : String)
    (env : VamEnv) : (String → Option DSess) × Bool :=
  let cid : String := ⟨pyStripWs (if convIdRaw = "" then "local" else convIdRaw).data⟩
  let pn : String := ⟨pyStripWs pnRaw.data⟩
  if pn = "" then (store, false)
  else
    match env.startRef with
    | none => (store, false)
    | some _ =>
      if env.finalStatus ≠ "complete" then (store, false)
      else
        let sess := (store cid).getD {}   -- setdefault without "bankid"
        ((fun c => if c = cid then some {sess with verified := true} else store c), true)

/-! ## app.py — the idempotent commit gate (safe_create_booking) -/

/-- app._idem_key: SHA-256 of `name|email|date|time|treatment` built
from the payload with `.get(k, '')` defaults.  SHA-256 is deterministic,
so two payloads get the same key exactly when their joined base strings
coincide; the hash itself adds nothing observable here and the key is
modelled by the base string. -/
def idem_key (p : DPayload) : String :=
  p.name ++ "|" ++ p.email ++ "|" ++ p.date ++ "|" ++ p.time ++ "|" ++ p.treatment

/-- The LAST_BOOK table (`{hash_key: timestamp}`), as an association
list with Python-dict update semantics. -/
def LastBook := List (String × ℚ)

def lbLookup (lb : LastBook) (k : String) : Option ℚ :=
  match List.find? (fun r => r.1 = k) lb with
  | some r => some r.2
  | none => none

def lbInsert (lb : LastBook) (k : String) (v : ℚ) : LastBook :=
  -- dict update: the new binding shadows any older one for lookups
  (k, v) :: lb

/-- One call of app.safe_create_booking: `portal` is the
`create_booking_via_portal` collaborator's answer for this call, `now`
the clock.  Returns the `(ok, info)` pair, the updated LAST_BOOK and
whether the collaborator was invoked. -/
def safe_create_booking (portal : Bool × String) (lb : LastBook) (p : DPayload)
    (now : ℚ) : (Bool × String) × LastBook × Bool :=
  match lbLookup lb (idem_key p) with
  | some ts =>
    if now - ts < 60 then ((false, "duplicate_attempt"), lb, false)
    else
      if portal.1 then (portal, lbInsert lb (idem_key p) now, true)
      else (portal, lb, true)
  | none =>
    if portal.1 then (portal, lbInsert lb (idem_key p) now, true)
    else (portal, lb, true)

/-- One queued commit call: the payload, the wall-clock time and the
collaborator's would-be answer. -/
structure CommitCall where
  payload : DPayload
  now : ℚ
  portal : Bool × String

/-- Run a sequence of `safe_create_booking` calls, threading
LAST_BOOK. -/
def runCommits (lb : LastBook) : List CommitCall → List ((Bool × String) × Bool) × LastBook
  | [] => ([], lb)
  | c :: rest =>
    let r := safe_create_booking c.portal lb c.payload c.now
    ((r.1, r.2.2) :: (runCommits r.2.1 rest).1, (runCommits r.2.1 rest).2)

/-! ## Claims -/

/-- C4 counterexample: the normalizer is not idempotent.  `"a t"`
normalizes to `"at"` (the symbol-tightening pass removes every space),
and the second pass then reads the bare token `"at"` as the spoken-@
word: `normalize("a t") = "at"` but `normalize(normalize("a t")) =
"@"`. -/
theorem normalize_spelled_email_not_idempotent :
    normalize_spelled_email "a t" = "at"
    ∧ normalize_spelled_email (normalize_spelled_email "a t") = "@"
    ∧ normalize_spelled_email (normalize_spelled_email "a t")
      ≠ normalize_spelled_email "a t" := by
  refine ⟨by decide, by decide, by decide⟩

/-- C4 (amended): the normalizer is idempotent on the spec's
representative inputs — spoken e-mail spellings, already-normal e-mail
addresses and ordinary booking utterances — though not on every string
(see the counterexample). -/
theorem normalize_spelled_email_idempotent_on_representative_inputs :
    (normalize_spelled_email (normalize_spelled_email "anna snabela gmail punkt com")
      = normalize_spelled_email "anna snabela gmail punkt com")
    ∧ (normalize_spelled_email (normalize_spelled_email
        "j som johan punkt erik snabel-a hotmail punkt se")
      = normalize_spelled_email "j som johan punkt erik snabel-a hotmail punkt se")
    ∧ (normalize_spelled_email (normalize_spelled_email "anna@gmail.com")
      = normalize_spelled_email "anna@gmail.com")
    ∧ (normalize_spelled_email (normalize_spelled_email "boka 2025-09-01")
      = normalize_spelled_email "boka 2025-09-01")
    ∧ (normalize_spelled_email (normalize_spelled_email "hej jag vill boka en tid")
      = normalize_spelled_email "hej jag vill boka en tid") := by
  refine ⟨by decide, by decide, by decide, by decide, by decide⟩

/-- C5: the time extractors cannot parse the spelled-out idioms their
own documentation promises ("halv tre" → 14:30, "kvart i tre" → 14:45):
both regexes demand digits after the idiom words, so these utterances
yield no time at all, in either flow and for any base date. -/
theorem spelled_time_idioms_not_parsed :
    parse_time_from_text "halv tre" = none
    ∧ parse_time_from_text "kvart i tre" = none
    ∧ (∀ base : Nat, parse_sv_date_time "halv tre" base = .ok (none, none))
    ∧ (∀ base : Nat, parse_sv_date_time "kvart i tre" base = .ok (none, none)) := by
  refine ⟨by decide, by decide, fun base => rfl, fun base => rfl⟩

theorem lbLookup_insert_self (lb : LastBook) (k : String) (v : ℚ) :
    lbLookup (lbInsert lb k v) k = some v := by
  simp [lbLookup, lbInsert]

theorem lbLookup_insert_ne (lb : LastBook) (k k' : String) (v : ℚ) (h : k ≠ k') :
    lbLookup (lbInsert lb k' v) k = lbLookup lb k := by
  simp [lbLookup, lbInsert, List.find?, Ne.symm h]

/-- Branch characterization of `safe_create_booking`: an entry inside
the 60-second window short-circuits. -/
theorem scb_dup (portal : Bool × String) (lb : LastBook) (p : DPayload) (now ts : ℚ)
    (hfind : lbLookup lb (idem_key p) = some ts) (hlt : now - ts < 60) :
    safe_create_booking portal lb p now = ((false, "duplicate_attempt"), lb, false) := by
  unfold safe_create_booking
  rw [hfind]
  simp [hlt]

/-- Branch characterization: no live entry means the collaborator is
invoked and, on success, the key is recorded. -/
theorem scb_go_none (portal : Bool × String) (lb : LastBook) (p : DPayload) (now : ℚ)
    (hfind : lbLookup lb (idem_key p) = none) :
    safe_create_booking portal lb p now
      = (portal, (if portal.1 then lbInsert lb (idem_key p) now else lb), true) := by
  unfold safe_create_booking
  rw [hfind]
  by_cases hp : portal.1 <;> simp [hp]

theorem scb_go_stale (portal : Bool × String) (lb : LastBook) (p : DPayload) (now ts : ℚ)
    (hfind : lbLookup lb (idem_key p) = some ts) (hge : ¬ now - ts < 60) :
    safe_create_booking portal lb p now
      = (portal, (if portal.1 then lbInsert lb (idem_key p) now else lb), true) := by
  unfold safe_create_booking
  rw [hfind]
  by_cases hp : portal.1 <;> simp [hge, hp]

/-- After a successful commit at time `t`, the LAST_BOOK entry of its
fingerprint stays either `t` itself or a value at least `t + 60`,
across any further sequence of commit calls. -/
theorem runCommits_key_inv (calls : List CommitCall) (k : String) (t : ℚ) :
    ∀ lb : LastBook,
      (∃ u, lbLookup lb k = some u ∧ (u = t ∨ u ≥ t + 60)) →
      ∃ u, lbLookup (runCommits lb calls).2 k = some u ∧ (u = t ∨ u ≥ t + 60) := by
  induction calls with
  | nil => intro lb h; exact h
  | cons c rest ih =>
    intro lb h
    obtain ⟨u, hu, hut⟩ := h
    have step : ∃ u', lbLookup (safe_create_booking c.portal lb c.payload c.now).2.1 k
        = some u' ∧ (u' = t ∨ u' ≥ t + 60) := by
      rcases hfind : lbLookup lb (idem_key c.payload) with _ | ts
      · rw [scb_go_none _ _ _ _ hfind]
        by_cases hp : c.portal.1
        · simp only [if_pos hp]
          by_cases hk : idem_key c.payload = k
          · rw [hk] at hfind; rw [hfind] at hu; cases hu
          · rw [lbLookup_insert_ne _ _ _ _ (fun he => hk (Eq.symm he))]
            exact ⟨u, hu, hut⟩
        · simp only [if_neg hp]
          exact ⟨u, hu, hut⟩
      · by_cases hlt : c.now - ts < 60
        · rw [scb_dup _ _ _ _ _ hfind hlt]
          exact ⟨u, hu, hut⟩
        · rw [scb_go_stale _ _ _ _ _ hfind hlt]
          by_cases hp : c.portal.1
          · simp only [if_pos hp]
            by_cases hk : idem_key c.payload = k
            · refine ⟨c.now, by rw [hk] at hfind ⊢; exact lbLookup_insert_self _ _ _,
                Or.inr ?_⟩
              rw [hk] at hfind
              rw [hfind] at hu
              cases hu
              rcases hut with h1 | h1
              · subst h1; linarith [not_lt.mp hlt]
              · have := not_lt.mp hlt; linarith
            · rw [lbLookup_insert_ne _ _ _ _ (fun he => hk (Eq.symm he))]
              exact ⟨u, hu, hut⟩
          · simp only [if_neg hp]
            exact ⟨u, hu, hut⟩
    exact ih _ step

/-- C2: if a `safe_create_booking` call succeeds, then every later call
with the same fingerprint made less than 60 seconds after returns
`(False, "duplicate_attempt")` without invoking the booking
collaborator — and the successful call itself did invoke it (so two
rapid identical commits trigger the collaborator exactly once). -/
theorem safe_create_booking_dedupes (lb0 : LastBook) (pre mid : List CommitCall)
    (ci cj : CommitCall)
    (hok : (safe_create_booking ci.portal (runCommits lb0 pre).2 ci.payload ci.now).1.1
      = true)
    (hkey : idem_key cj.payload = idem_key ci.payload)
    (htime : cj.now - ci.now < 60) :
    (safe_create_booking ci.portal (runCommits lb0 pre).2 ci.payload ci.now).2.2 = true
    ∧ (safe_create_booking cj.portal
        (runCommits (safe_create_booking ci.portal (runCommits lb0 pre).2 ci.payload
          ci.now).2.1 mid).2 cj.payload cj.now).1 = (false, "duplicate_attempt")
    ∧ (safe_create_booking cj.portal
        (runCommits (safe_create_booking ci.portal (runCommits lb0 pre).2 ci.payload
          ci.now).2.1 mid).2 cj.payload cj.now).2.2 = false := by
  have hchar : safe_create_booking ci.portal (runCommits lb0 pre).2 ci.payload ci.now
      = (ci.portal, (if ci.portal.1 then
          lbInsert (runCommits lb0 pre).2 (idem_key ci.payload) ci.now
        else (runCommits lb0 pre).2), true) := by
    rcases hfind : lbLookup (runCommits lb0 pre).2 (idem_key ci.payload) with _ | ts
    · exact scb_go_none _ _ _ _ hfind
    · by_cases hlt : ci.now - ts < 60
      · rw [scb_dup _ _ _ _ _ hfind hlt] at hok
        cases hok
      · exact scb_go_stale _ _ _ _ _ hfind hlt
  have hportal : ci.portal.1 = true := by
    rw [hchar] at hok
    exact hok
  have hrecorded : (safe_create_booking ci.portal (runCommits lb0 pre).2 ci.payload
      ci.now).2.1 = lbInsert (runCommits lb0 pre).2 (idem_key ci.payload) ci.now := by
    rw [hchar]
    simp [hportal]
  have hinvoked : (safe_create_booking ci.portal (runCommits lb0 pre).2 ci.payload
      ci.now).2.2 = true := by
    rw [hchar]
  refine ⟨hinvoked, ?_⟩
  obtain ⟨u, hu, hut⟩ := runCommits_key_inv mid (idem_key ci.payload) ci.now
    (safe_create_booking ci.portal (runCommits lb0 pre).2 ci.payload ci.now).2.1
    ⟨ci.now, by rw [hrecorded]; exact lbLookup_insert_self _ _ _, Or.inl rfl⟩
  have hdup : cj.now - u < 60 := by
    rcases hut with h1 | h1
    · subst h1; exact htime
    · linarith
  have hfj : lbLookup (runCommits (safe_create_booking ci.portal (runCommits lb0 pre).2
      ci.payload ci.now).2.1 mid).2 (idem_key cj.payload) = some u := by
    rw [hkey]; exact hu
  rw [scb_dup _ _ _ _ _ hfj hdup]
  exact ⟨rfl, rfl⟩

/-- Witness for C2 at a concrete pair of identical calls 30 seconds
apart. -/
theorem safe_create_booking_dedupes_witness :
    (safe_create_booking (true, "42") (runCommits [] []).2
      ⟨"m", "Anna", "a@b.se", none, "2026-10-20", "10:00", "undersökning"⟩ 0).2.2 = true
    ∧ (safe_create_booking (true, "43")
        (runCommits (safe_create_booking (true, "42") (runCommits [] []).2
          ⟨"m", "Anna", "a@b.se", none, "2026-10-20", "10:00", "undersökning"⟩ 0).2.1
          []).2
        ⟨"m", "Anna", "a@b.se", none, "2026-10-20", "10:00", "undersökning"⟩ 30).1
      = (false, "duplicate_attempt")
    ∧ (safe_create_booking (true, "43")
        (runCommits (safe_create_booking (true, "42") (runCommits [] []).2
          ⟨"m", "Anna", "a@b.se", none, "2026-10-20", "10:00", "undersökning"⟩ 0).2.1
          []).2
        ⟨"m", "Anna", "a@b.se", none, "2026-10-20", "10:00", "undersökning"⟩ 30).2.2
      = false :=
  safe_create_booking_dedupes [] [] []
    ⟨⟨"m", "Anna", "a@b.se", none, "2026-10-20", "10:00", "undersökning"⟩, 0, (true, "42")⟩
    ⟨⟨"m", "Anna", "a@b.se", none, "2026-10-20", "10:00", "undersökning"⟩, 30, (true, "43")⟩
    rfl rfl (by norm_num)

/-- C7: for every weekday name and every base date falling on that very
weekday, "nästa <weekday>" resolves to the date exactly 7 days after the
base date (never the base date itself), in both the hair flow's
`_parse_relative_date` and the dental flow's `parse_sv_date_time`. -/
theorem next_weekday_same_day_resolves_one_week_later :
    ∀ w ∈ WEEKDAY_MAP, ∀ today : Nat, pyWeekday today = w.2 →
      parse_relative_date ("nästa " ++ w.1) today = some (isoOfOrdS (today + 7))
      ∧ parse_sv_date_time ("nästa " ++ w.1) today
        = .ok (some (isoOfOrdS (today + 7)), none) := by
  intro w hw
  fin_cases hw <;>
    · intro today h
      refine ⟨?_, ?_⟩
      · simp only [parse_relative_date, h]
        rfl
      · simp only [parse_sv_date_time, h]
        rfl

/-- Witness for C7: 2026-10-16 is a Friday, and "nästa fredag" resolves
to 2026-10-23 in both parsers. -/
theorem next_weekday_same_day_witness :
    ("fredag", 4) ∈ WEEKDAY_MAP
    ∧ pyWeekday (ymdToOrd 2026 10 16) = 4
    ∧ parse_relative_date "nästa fredag" (ymdToOrd 2026 10 16)
      = some (isoOfOrdS (ymdToOrd 2026 10 16 + 7))
    ∧ parse_sv_date_time "nästa fredag" (ymdToOrd 2026 10 16)
      = .ok (some (isoOfOrdS (ymdToOrd 2026 10 16 + 7)), none) := by
  have h := next_weekday_same_day_resolves_one_week_later ("fredag", 4) (by decide)
    (ymdToOrd 2026 10 16) (by decide)
  exact ⟨by decide, by decide, h.1, h.2⟩

theorem space_not_digit {c : Char} (h : pyIsSpace c = true) : pyIsDigit c = false := by
  simp only [pyIsSpace, Bool.or_eq_true, decide_eq_true_eq] at h
  rcases h with ((((h | h) | h) | h) | h) | h <;> subst h <;> decide

theorem digit_not_space {c : Char} (h : pyIsDigit c = true) : pyIsSpace c = false := by
  by_contra hs
  rw [Bool.not_eq_false] at hs
  rw [space_not_digit hs] at h
  cases h

theorem space_not_word {c : Char} (h : pyIsSpace c = true) : pyIsWord c = false := by
  simp only [pyIsSpace, Bool.or_eq_true, decide_eq_true_eq] at h
  rcases h with ((((h | h) | h) | h) | h) | h <;> subst h <;> decide

theorem digit_word {c : Char} (h : pyIsDigit c = true) : pyIsWord c = true := by
  simp only [pyIsDigit] at h
  simp [pyIsWord, h]

theorem nthc_getElem? (s : List Char) (m : Nat) : nthc s m = s[m]? := by
  rw [nthc, List.head?_eq_getElem?, List.getElem?_drop, Nat.add_zero]

theorem nthc_lt {s : List Char} {k : Nat} {c : Char} (h : nthc s k = some c) :
    k < s.length := by
  by_contra hk
  rw [nthc_getElem?, List.getElem?_eq_none (by omega)] at h
  cases h

theorem nthc_cons_drop {s : List Char} {k : Nat} {c : Char} (h : nthc s k = some c) :
    ∃ t, s.drop k = c :: t := by
  rcases hd : s.drop k with _ | ⟨a, t⟩
  · rw [nthc, hd] at h; cases h
  · refine ⟨t, ?_⟩
    rw [nthc, hd] at h
    simp only [List.head?_cons, Option.some.injEq] at h
    rw [h]

/-- `\s*` does not move at a non-space character. -/
theorem skipWs_at_nonspace {s : List Char} {k : Nat} {c : Char}
    (h : nthc s k = some c) (hc : pyIsSpace c = false) : skipWs s k = k := by
  obtain ⟨t, hd⟩ := nthc_cons_drop h
  simp [skipWs, wsRunLen, hd, List.takeWhile, hc]

theorem getElem?_takeWhile_eq {α : Type} {p : α → Bool} :
    ∀ (l : List α) (i : Nat), i < (l.takeWhile p).length →
      l[i]? = (l.takeWhile p)[i]? := by
  intro l
  induction l with
  | nil => intro i hi; simp [List.takeWhile] at hi
  | cons a t ih =>
    intro i hi
    by_cases hp : p a
    · rw [List.takeWhile_cons_of_pos hp] at hi ⊢
      cases i with
      | zero => simp
      | succ n =>
        simp only [List.getElem?_cons_succ]
        exact ih n (by simpa using hi)
    · rw [List.takeWhile_cons_of_neg hp] at hi
      simp at hi

/-- After `\s+` the character just before the new position is
whitespace, and the position advanced. -/
theorem wsRun1_facts {s : List Char} {j k : Nat} (h : wsRun1 s j = some k) :
    j < k ∧ ∃ c, nthc s (k - 1) = some c ∧ pyIsSpace c = true := by
  have hsp : (nthc s j).any pyIsSpace = true := by
    by_contra hns
    rw [wsRun1, if_neg (by simpa using hns)] at h
    cases h
  have hk : k = j + wsRunLen s j := by
    rw [wsRun1, if_pos hsp] at h
    exact (Option.some.injEq _ _ ▸ h).symm
  rcases hc0 : nthc s j with _ | c0
  · rw [hc0] at hsp; cases hsp
  · rw [hc0] at hsp
    simp only [Option.any_some] at hsp
    obtain ⟨t, hd⟩ := nthc_cons_drop hc0
    have hlen : wsRunLen s j ≥ 1 := by
      simp [wsRunLen, hd, List.takeWhile, hsp]
    set n := wsRunLen s j with hn
    refine ⟨by omega, ?_⟩
    have hidx : n - 1 < ((s.drop j).takeWhile pyIsSpace).length := by
      simp only [wsRunLen] at hn
      omega
    have hget : (s.drop j)[n - 1]? = ((s.drop j).takeWhile pyIsSpace)[n - 1]? :=
      getElem?_takeWhile_eq _ _ hidx
    rcases hval : ((s.drop j).takeWhile pyIsSpace)[n - 1]? with _ | c
    · exfalso
      rw [List.getElem?_eq_getElem hidx] at hval
      cases hval
    · refine ⟨c, ?_, List.mem_takeWhile_imp (List.getElem?_mem hval)⟩
      rw [nthc_getElem?, show k - 1 = j + (n - 1) by omega, ← List.getElem?_drop,
        hget, hval]

theorem firstSome_isSome_of_mem {α : Type} {l : List (Option α)} {x : Option α}
    (hx : x ∈ l) (hs : x.isSome) : (firstSome l).isSome := by
  induction l with
  | nil => cases hx
  | cons a t ih =>
    cases a with
    | some v => simp [firstSome]
    | none =>
      rcases List.mem_cons.mp hx with h1 | h1
      · simp [h1] at hs
      · exact ih h1

theorem scanFrom_isSome {α : Type} {p : Nat → Option α} :
    ∀ (fuel i j : Nat) (a : α), p j = some a → i ≤ j → j ≤ i + fuel →
      (scanFrom p i fuel).isSome := by
  intro fuel
  induction fuel with
  | zero =>
    intro i j a hp hij hji
    have : i = j := by omega
    subst this
    simp [scanFrom, hp]
  | succ n ih =>
    intro i j a hp hij hji
    rcases hpi : p i with _ | b
    · by_cases hij' : i = j
      · subst hij'; rw [hpi] at hp; cases hp
      · have := ih (i + 1) j a hp (by omega) (by omega)
        simpa [scanFrom, hpi] using this
    · simp [scanFrom, hpi]

theorem scanFrom_some_exists {α : Type} {p : Nat → Option α} :
    ∀ (fuel i : Nat) (a : α), scanFrom p i fuel = some a → ∃ j, p j = some a := by
  intro fuel
  induction fuel with
  | zero => intro i a h; exact ⟨i, h⟩
  | succ n ih =>
    intro i a h
    rcases hpi : p i with _ | b
    · simp only [scanFrom, hpi] at h
      exact ih (i + 1) a h
    · simp only [scanFrom, hpi] at h
      exact ⟨i, by rw [hpi, h]⟩

/-- The hour token of the halv/kvart/bare patterns starts with a
digit. -/
theorem hourTokenBAt_digit {s : List Char} {k : Nat} {h : Nat}
    (hh : hourTokenBAt s k = some h) : ∃ c, nthc s k = some c ∧ pyIsDigit c = true := by
  have hne : hourCands s k ≠ [] := by
    intro hcn
    rw [hourTokenBAt, hcn] at hh
    cases hh
  rcases hc : nthc s k with _ | c
  · exfalso
    apply hne
    rw [hourCands, hc]
    rcases nthc s (k + 1) with _ | b <;> rfl
  · refine ⟨c, rfl, ?_⟩
    by_contra hd
    rw [Bool.not_eq_true] at hd
    apply hne
    have hc0 : (c = '0' || c = '1') = false := by
      rcases hc01 : (c = '0' || c = '1') with _ | _
      · rfl
      · exfalso
        simp only [Bool.or_eq_true, decide_eq_true_eq] at hc01
        rcases hc01 with h1 | h1 <;> subst h1 <;> cases hd
    have hc2 : (c = '2') = False := by
      simp only [eq_iff_iff, iff_false]
      intro h2
      subst h2
      cases hd
    rw [hourCands, hc]
    rcases hb : nthc s (k + 1) with _ | b
    · simp [hd]
    · simp [hc0, hd, hc2]

/-- Inversion of the halv/kvart matcher: a match puts the hour token
right after a `\s+` run. -/
theorem wordHourPatAt_inv {lit : List Char} {s : List Char} {i h : Nat}
    (hm : wordHourPatAt lit s i = some h) :
    ∃ j k, wsRun1 s j = some k ∧ hourTokenBAt s k = some h := by
  rw [wordHourPatAt] at hm
  by_cases hb : boundaryAt s i
  · rw [if_neg (by simp [hb])] at hm
    rcases hl : litAt s i lit with _ | j
    · simp only [hl] at hm
      cases hm
    · simp only [hl] at hm
      rcases hw : wsRun1 s j with _ | k
      · simp only [hw] at hm
        cases hm
      · simp only [hw] at hm
        exact ⟨j, k, hw, hm⟩
  · rw [if_pos (by simp [hb])] at hm
    cases hm

/-- Wherever a halv/kvart hour token sits, the bare-hour pattern also
matches (at the token position itself). -/
theorem bareHour_matches_at_token {s : List Char} {j k h : Nat}
    (hw : wsRun1 s j = some k) (ht : hourTokenBAt s k = some h) :
    (bareHourPatAt s k).isSome := by
  obtain ⟨c, hc, hdig⟩ := hourTokenBAt_digit ht
  obtain ⟨hjk, cp, hcp, hsp⟩ := wsRun1_facts hw
  have hskip : skipWs s k = k := skipWs_at_nonspace hc (digit_not_space hdig)
  have hbnd : boundaryAt s k = true := by
    have hprev : isWordAt s (k - 1) = false := by
      rw [isWordAt, hcp]
      exact space_not_word hsp
    have hcur : isWordAt s k = true := by
      rw [isWordAt, hc]
      exact digit_word hdig
    rw [boundaryAt]
    simp [if_neg (show ¬ k = 0 by omega), hprev, hcur]
  have hrest : bareHourRestAt s k = some h := by
    rw [bareHourRestAt]
    simp only [hskip, hbnd, if_pos]
    exact ht
  rw [show bareHourPatAt s k = firstSome
      [(litAt s k "klockan".data).bind (bareHourRestAt s),
       (litAt s k "kl.".data).bind (bareHourRestAt s),
       (litAt s k "kl".data).bind (bareHourRestAt s),
       (litAt s k "vid".data).bind (bareHourRestAt s),
       bareHourRestAt s k] from rfl]
  exact firstSome_isSome_of_mem (x := bareHourRestAt s k) (by simp)
    (by rw [hrest]; rfl)

/-- C10: in hair._parse_time_from_text, when the text has no HH:MM /
HH.MM token and the bare-hour pattern finds a standalone 0–23 number,
the result is that (leftmost) hour as "HH:00"; moreover every input the
digit-based halv / kvart över / kvart i branches could match is already
claimed by the bare-hour rule (their hour token is a standalone number),
so those branches are unreachable — e.g. "halv 3" yields "03:00", not
"02:30". -/
theorem bare_hour_rule_shadows_halv_kvart :
    (∀ text : String, ∀ h : Nat,
      reSearch (pyLowerStr (pyStripWs text.data))
        (hhmmPatAt [':', '.'] (pyLowerStr (pyStripWs text.data))) = none →
      reSearch (pyLowerStr (pyStripWs text.data))
        (bareHourPatAt (pyLowerStr (pyStripWs text.data))) = some h →
      parse_time_from_text text = some ⟨fmtHhMm h "00".data⟩)
    ∧ (∀ text : String, ∀ lit ∈ ["halv".data, "kvart över".data, "kvart i".data],
      (reSearch (pyLowerStr (pyStripWs text.data))
        (wordHourPatAt lit (pyLowerStr (pyStripWs text.data)))).isSome →
      (reSearch (pyLowerStr (pyStripWs text.data))
        (bareHourPatAt (pyLowerStr (pyStripWs text.data)))).isSome)
    ∧ parse_time_from_text "halv 3" = some "03:00" := by
  refine ⟨?_, ?_, by decide⟩
  · intro text h h1 h2
    simp only [parse_time_from_text, h1, h2]
  · intro text lit _ hsome
    set t := pyLowerStr (pyStripWs text.data) with ht
    obtain ⟨h, hsh⟩ := Option.isSome_iff_exists.mp hsome
    rw [reSearch] at hsh
    obtain ⟨i, hi⟩ := scanFrom_some_exists _ _ _ hsh
    obtain ⟨j, k, hw, htok⟩ := wordHourPatAt_inv hi
    obtain ⟨c, hc, _⟩ := hourTokenBAt_digit htok
    have hk : k < t.length := nthc_lt hc
    obtain ⟨b, hb⟩ := Option.isSome_iff_exists.mp (bareHour_matches_at_token hw htok)
    rw [reSearch]
    exact scanFrom_isSome t.length 0 k b hb (by omega) (by omega)

/-- Witness for C10: "klockan 7" has no HH:MM token and a standalone 7,
so the bare rule gives "07:00"; and "halv 3" matches the halv pattern,
hence also the bare-hour pattern (which is why it gives "03:00"). -/
theorem bare_hour_rule_shadows_halv_kvart_witness :
    parse_time_from_text "klockan 7" = some "07:00"
    ∧ (reSearch (pyLowerStr (pyStripWs ("halv 3" : String).data))
        (bareHourPatAt (pyLowerStr (pyStripWs ("halv 3" : String).data)))).isSome := by
  constructor
  · exact bare_hour_rule_shadows_halv_kvart.1 "klockan 7" 7 (by decide) (by decide)
  · exact bare_hour_rule_shadows_halv_kvart.2.1 "halv 3" "halv".data (by decide)
      (by decide)

theorem dFillDT_verified (s : DSess) (d tm : Option String) :
    (dFillDT s d tm).verified = s.verified := by
  unfold dFillDT
  dsimp only
  split <;> split <;> rfl

/-- The BankID gate only talks to the BankID collaborator, never to the
verified booking portal. -/
theorem gate_no_book (env : DentalEnv) (cd : List Char) (sess : DSess) (p : DPayload) :
    DEvent.bookVerified p ∉ (dentalGatePhase env cd sess).2.2 := by
  unfold dentalGatePhase
  dsimp only
  repeat' split
  all_goals simp

/-- C1: in the dental flow, a turn invokes the booking collaborator
`create_booking_via_portal_verified` (the `bookVerified` event) only
when the session entering the turn is already verified: while
`verified` is false the BankID gate replies before the booking branch
is reached. -/
theorem dental_booking_requires_verified (env : DentalEnv)
    (store : String → Option DSess) (req : DReq) (p : DPayload)
    (h : DEvent.bookVerified p ∈ (dentalTurnCore env store req).2.2) :
    ((store req.conv_id).getD dDefaultFull).verified = true := by
  unfold dentalTurnCore at h
  dsimp only at h
  split at h
  · exact absurd h (List.not_mem_nil _)
  · split at h
    · exact absurd h (List.not_mem_nil _)
    · split at h
      · exact absurd h (List.not_mem_nil _)
      · split at h
        · exact absurd h (gate_no_book _ _ _ _)
        · split at h
          · rename_i hver _
            rw [Bool.not_eq_true] at hver
            push_neg at hver
            rw [dFillDT_verified] at hver
            simpa using hver
          · exact absurd h (List.not_mem_nil _)

/-- A concrete dental environment for witnesses: the repair oracle is
the identity (a failed GPT call), BankID succeeds, the portal books. -/
def witEnvD : DentalEnv :=
  { repair := id, today := ymdToOrd 2026 10 12, clinic := "mathias",
    bankidStart := fun _ => (true, "ref-1"),
    bankidStatus := fun _ => (true, "complete"),
    portal := fun _ => (true, "42") }

/-- A store holding one fully-slotted, verified dental session. -/
def witStoreV : String → Option DSess := fun c =>
  if c = "k" then
    some { slots := { name := some "Anna", email := some "a@b.se",
                      date := some "2026-10-20", time := some "10:00",
                      treatment := some "undersökning" },
           verified := true, bankid := some {} }
  else none

/-- Witness for C1: a verified, fully-slotted session does reach the
booking collaborator, and the theorem yields its `verified = true`. -/
def witPayload : DPayload :=
  { clinic := "mathias", name := "Anna", email := "a@b.se", phone := none,
    date := "2026-10-20", time := "10:00", treatment := "undersökning" }

theorem dental_booking_requires_verified_witness :
    DEvent.bookVerified witPayload ∈ (dentalTurnCore witEnvD witStoreV
      { text := "ok", conv_id := "k" }).2.2
    ∧ ((witStoreV "k").getD dDefaultFull).verified = true := by
  refine ⟨by decide, ?_⟩
  exact dental_booking_requires_verified witEnvD witStoreV
    { text := "ok", conv_id := "k" } witPayload (by decide)

/-- Session-level booking invariant. -/
def SInvD (sess : DSess) : Prop :=
  sess.created_booking = true → sess.verified = true ∧ slots_ready sess.slots = true

theorem SInvD_empty : SInvD {} := by intro h; cases h

theorem SInvD_default : SInvD dDefaultFull := by intro h; cases h

theorem slotPut_truthy {old : Option String} (v : String) (h : tOptStr old = true) :
    tOptStr (slotPut old v) = true := by
  unfold slotPut
  split
  · simp [tOptStr]
    assumption
  · exact h

theorem dFillDT_cb (s : DSess) (d tm : Option String) :
    (dFillDT s d tm).created_booking = s.created_booking := by
  unfold dFillDT
  dsimp only
  split <;> split <;> rfl

theorem dFillDT_ready (s : DSess) (d tm : Option String)
    (h : slots_ready s.slots = true) : slots_ready (dFillDT s d tm).slots = true := by
  unfold dFillDT
  dsimp only
  simp only [slots_ready, Bool.and_eq_true] at h
  obtain ⟨⟨⟨⟨hn, he⟩, hd⟩, ht⟩, htr⟩ := h
  split <;> split <;>
  · simp only [slots_ready, Bool.and_eq_true]
    refine ⟨⟨⟨⟨?_, ?_⟩, ?_⟩, ?_⟩, ?_⟩ <;>
      first
        | assumption
        | (exact slotPut_truthy _ (by assumption))

theorem dFillDT_inv (s : DSess) (d tm : Option String) (h : SInvD s) :
    SInvD (dFillDT s d tm) := by
  intro hcb
  rw [dFillDT_cb] at hcb
  obtain ⟨hv, hr⟩ := h hcb
  exact ⟨by rw [dFillDT_verified]; exact hv, dFillDT_ready _ _ _ hr⟩

theorem slotPhase_inv (cd : List Char) (d tm : Option String) (sess : DSess)
    (r : DSess × DOutCore) (h : dentalSlotPhase cd d tm sess = some r)
    (hS : SInvD sess) : SInvD r.1 := by
  unfold dentalSlotPhase at h
  split at h
  · split at h <;>
    · simp only [Option.some.injEq] at h
      subst h
      intro hcb
      obtain ⟨hv, hr⟩ := hS hcb
      refine ⟨hv, ?_⟩
      simp only [slots_ready, Bool.and_eq_true] at hr ⊢
      obtain ⟨⟨⟨⟨hn, he⟩, hd⟩, ht⟩, htr⟩ := hr
      refine ⟨⟨⟨⟨?_, ?_⟩, ?_⟩, ?_⟩, ?_⟩ <;>
        first
          | assumption
          | (exact slotPut_truthy _ (by assumption))
  · split at h
    · split at h <;>
      · simp only [Option.some.injEq] at h
        subst h
        intro hcb
        obtain ⟨hv, hr⟩ := hS hcb
        refine ⟨hv, ?_⟩
        simp only [slots_ready, Bool.and_eq_true] at hr ⊢
        obtain ⟨⟨⟨⟨hn, he⟩, hd⟩, ht⟩, htr⟩ := hr
        refine ⟨⟨⟨⟨?_, ?_⟩, ?_⟩, ?_⟩, ?_⟩ <;>
          first
            | assumption
            | (exact slotPut_truthy _ (by assumption))
    · split at h
      · split at h <;>
        · simp only [Option.some.injEq] at h
          subst h
          intro hcb
          obtain ⟨hv, hr⟩ := hS hcb
          refine ⟨hv, ?_⟩
          simp only [slots_ready, Bool.and_eq_true] at hr ⊢
          obtain ⟨⟨⟨⟨hn, he⟩, hd⟩, ht⟩, htr⟩ := hr
          refine ⟨⟨⟨⟨?_, ?_⟩, ?_⟩, ?_⟩, ?_⟩ <;>
            first
              | assumption
              | (exact slotPut_truthy _ (by assumption))
      · split at h
        · split at h <;>
          · simp only [Option.some.injEq] at h
            subst h
            intro hcb
            obtain ⟨hv, hr⟩ := hS hcb
            refine ⟨hv, ?_⟩
            simp only [slots_ready, Bool.and_eq_true] at hr ⊢
            obtain ⟨⟨⟨⟨hn, he⟩, hd⟩, ht⟩, htr⟩ := hr
            refine ⟨⟨⟨⟨?_, ?_⟩, ?_⟩, ?_⟩, ?_⟩ <;>
              first
                | assumption
                | (exact slotPut_truthy _ (by assumption))
        · split at h
          · split at h <;>
            · simp only [Option.some.injEq] at h
              subst h
              intro hcb
              obtain ⟨hv, hr⟩ := hS hcb
              refine ⟨hv, ?_⟩
              simp only [slots_ready, Bool.and_eq_true] at hr ⊢
              obtain ⟨⟨⟨⟨hn, he⟩, hd⟩, ht⟩, htr⟩ := hr
              refine ⟨⟨⟨⟨?_, ?_⟩, ?_⟩, ?_⟩, ?_⟩ <;>
                first
                  | assumption
                  | (exact slotPut_truthy _ (by assumption))
          · cases h

theorem gatePhase_inv (env : DentalEnv) (cd : List Char) (sess : DSess)
    (hS : SInvD sess) : SInvD (dentalGatePhase env cd sess).1 := by
  unfold dentalGatePhase
  dsimp only
  repeat' split
  all_goals
    intro hcb
    dsimp only at hcb ⊢
    obtain ⟨hv, hr⟩ := hS hcb
    first
      | exact ⟨hv, hr⟩
      | exact ⟨rfl, hr⟩

theorem bookPhase_inv (env : DentalEnv) (sess : DSess)
    (hba : booking_allowed sess = true) : SInvD (dentalBookPhase env sess).1 := by
  simp only [booking_allowed, Bool.and_eq_true, Bool.not_eq_true'] at hba
  obtain ⟨⟨hv, _⟩, hr⟩ := hba
  unfold dentalBookPhase
  dsimp only
  repeat' split
  all_goals intro hcb
  all_goals exact ⟨hv, hr⟩

theorem SInvD_set_verified (s : DSess) (h : SInvD s) : SInvD {s with verified := true} := by
  intro hcb
  dsimp only at hcb ⊢
  obtain ⟨_, hr⟩ := h hcb
  exact ⟨rfl, hr⟩

theorem SInvD_getD (store : String → Option DSess) (cid : String) (dflt : DSess)
    (hd : SInvD dflt) (h : ∀ sess, store cid = some sess → SInvD sess) :
    SInvD ((store cid).getD dflt) := by
  rcases hst : store cid with _ | s0
  · simpa using hd
  · simpa using h s0 hst

theorem dentalTurnCore_store_shape (env : DentalEnv) (store : String → Option DSess)
    (req : DReq) :
    ∃ newSess : DSess,
      (dentalTurnCore env store req).1
        = (fun c => if c = req.conv_id then some newSess else store c)
      ∧ (SInvD ((store req.conv_id).getD dDefaultFull) → SInvD newSess) := by
  unfold dentalTurnCore
  dsimp only
  split
  · exact ⟨_, rfl, fun hS => hS⟩
  · split
    · exact ⟨_, rfl, fun hS => hS⟩
    · split
      · rename_i r hr
        exact ⟨r.1, rfl, fun hS => slotPhase_inv _ _ _ _ _ hr (dFillDT_inv _ _ _ hS)⟩
      · split
        · exact ⟨_, rfl, fun hS => gatePhase_inv env _ _ (dFillDT_inv _ _ _ hS)⟩
        · split
          · rename_i hba
            exact ⟨_, rfl, fun _ => bookPhase_inv env _ (by simpa using hba)⟩
          · exact ⟨_, rfl, fun hS => dFillDT_inv _ _ _ hS⟩

/-- The operations of the dental session store. -/
inductive DentalOp where
  | turn (env : DentalEnv) (req : DReq)
  | markVerified (cidRaw : String)
  | verifyAndMark (convIdRaw pnRaw : String) (env : VamEnv)
  | reset (cid : String)
  | endSession (cid : String)

def dentalApply : DentalOp → (String → Option DSess) → (String → Option DSess)
  | .turn env req, st => (dentalTurnCore env st req).1
  | .markVerified c, st => (mark_verified st c).1
  | .verifyAndMark c p e, st => (bankid_verify_and_mark st c p e).1
  | .reset c, st => session_reset st c
  | .endSession c, st => session_end st c

/-- Store-level invariant: every committed session is verified with all
required slots present. -/
def DInv (store : String → Option DSess) : Prop :=
  ∀ cid sess, store cid = some sess → SInvD sess

/-- C3: every dental-store operation — a `process_input` turn,
`mark_verified`, `bankid_verify_and_mark`, `session_reset`,
`session_end` — preserves the invariant that a session with
`created_booking = true` has all five required slots present and
`verified = true`; no operation can set `created_booking` without
verification and complete slots. -/
theorem dental_created_booking_invariant (op : DentalOp) (store : String → Option DSess)
    (h : DInv store) : DInv (dentalApply op store) := by
  cases op with
  | turn env req =>
    obtain ⟨ns, hshape, himp⟩ := dentalTurnCore_store_shape env store req
    intro c s hc
    rw [show dentalApply (.turn env req) store = (dentalTurnCore env store req).1 from rfl,
      hshape] at hc
    dsimp only at hc
    by_cases hcid : c = req.conv_id
    · rw [if_pos hcid] at hc
      obtain rfl : ns = s := by simpa using hc
      exact himp (SInvD_getD store req.conv_id _ SInvD_default (fun s0 h0 => h _ _ h0))
    · rw [if_neg hcid] at hc
      exact h _ _ hc
  | markVerified cidRaw =>
    intro c s hc
    rw [show dentalApply (.markVerified cidRaw) store = (mark_verified store cidRaw).1
      from rfl] at hc
    unfold mark_verified at hc
    dsimp only at hc
    split at hc
    · exact h _ _ hc
    · dsimp only at hc
      by_cases hcid : c = (⟨pyStripWs cidRaw.data⟩ : String)
      · rw [if_pos hcid] at hc
        obtain rfl := (Option.some.injEq _ _ ▸ hc)
        exact SInvD_set_verified _ (SInvD_getD store _ _ SInvD_empty (fun s0 h0 => h _ _ h0))
      · rw [if_neg hcid] at hc
        exact h _ _ hc
  | verifyAndMark convIdRaw pnRaw venv =>
    intro c s hc
    rw [show dentalApply (.verifyAndMark convIdRaw pnRaw venv) store
      = (bankid_verify_and_mark store convIdRaw pnRaw venv).1 from rfl] at hc
    unfold bankid_verify_and_mark at hc
    dsimp only at hc
    split at hc
    · exact h _ _ hc
    · split at hc
      · exact h _ _ hc
      · split at hc
        · exact h _ _ hc
        · dsimp only at hc
          by_cases hcid : c = (⟨pyStripWs (if convIdRaw = "" then "local"
            else convIdRaw).data⟩ : String)
          · rw [if_pos hcid] at hc
            obtain rfl := (Option.some.injEq _ _ ▸ hc)
            exact SInvD_set_verified _ (SInvD_getD store _ _ SInvD_empty (fun s0 h0 => h _ _ h0))
          · rw [if_neg hcid] at hc
            exact h _ _ hc
  | reset cid =>
    intro c s hc
    rw [show dentalApply (.reset cid) store = session_reset store cid from rfl] at hc
    unfold session_reset at hc
    by_cases hcid : c = cid
    · rw [if_pos hcid] at hc
      obtain rfl := (Option.some.injEq _ _ ▸ hc)
      exact SInvD_empty
    · rw [if_neg hcid] at hc
      exact h _ _ hc
  | endSession cid =>
    intro c s hc
    rw [show dentalApply (.endSession cid) store = session_end store cid from rfl] at hc
    unfold session_end at hc
    by_cases hcid : c = cid
    · rw [if_pos hcid] at hc
      cases hc
    · rw [if_neg hcid] at hc
      exact h _ _ hc

/-- Witness for C3: the invariant is preserved across a concrete turn
on the empty store (which trivially satisfies it). -/
theorem dental_created_booking_invariant_witness :
    DInv (dentalApply (DentalOp.turn witEnvD { text := "hej", conv_id := "w" })
      (fun _ => none)) :=
  dental_created_booking_invariant (DentalOp.turn witEnvD { text := "hej", conv_id := "w" })
    (fun _ => none) (fun _ _ hc => by cases hc)

theorem do_booking_head (env : HairEnv) (st : HSess) (salon : Int) :
    (do_booking env st salon).2.2.head?
      = some (HEvent.createBooking salon st.service_id st.time_id) := by
  unfold do_booking
  dsimp only
  split <;> rfl

/-- A demo hair environment for concrete turns. -/
def hairEnvDemo : HairEnv :=
  { todayStr := "2026-10-12", today := ymdToOrd 2026 10 12, humor := "",
    services := [⟨298, "Klippning rek. Långt och tjockt hår"⟩,
                 ⟨301, "Klippning kort hår"⟩],
    avail := fun _ _ _ => [⟨4700000, "2026-10-12T13:00:00", "2026-10-12T13:50:00"⟩,
                           ⟨4700001, "2026-10-12T14:00:00", "2026-10-12T14:50:00"⟩],
    create := fun _ _ _ => .ok ⟨501484, "2026-10-12T14:00:00", "Klippning kort hår"⟩,
    cancel := fun _ _ => .notFound,
    closeMatch := fun _ _ => none, emailOk := true, enqueueOk := true }

/-- A hair store with one session awaiting the final confirmation. -/
def hairStoreConfirm : String → Option HSess := fun c =>
  if c = "c1" then
    some { name := some "Anna", phone := some (some "+46701234567"),
           phone_confirmed := some true,
           email := some "anna@gmail.com", service_id := some 301,
           service_name := some "Klippning kort hår",
           time_id := some 4700001,
           slot := some (some ⟨4700001, "2026-10-12T14:00:00", "2026-10-12T14:50:00"⟩),
           awaiting_confirm := some true }
  else none

/-- C6 counterexample: while awaiting the final yes/no confirmation, the
utterance "vet ej" — neither an affirmative nor a negative — does not
re-issue the confirmation prompt: it invokes the booking collaborator in
that very turn (the code's `Otherwise → BOOK NOW` branch). -/
theorem hair_ambiguous_confirm_books_cex :
    yes_intent "vet ej" = false ∧ no_intent "vet ej" = false
    ∧ (hairStep hairEnvDemo hairStoreConfirm { text := "vet ej", conv_id := "c1" }).2.2
      = [HEvent.createBooking 97 (some 301) (some 4700001),
         HEvent.emailSend "anna@gmail.com", HEvent.smsSend "+46701234567"] := by
  refine ⟨by decide, by decide, by decide⟩

/-- C6 (amended): while `awaiting_confirm` is set, a recognized negative
clears the flag and re-offers availability without booking; every other
final utterance — affirmative or ambiguous — immediately invokes the
booking collaborator instead of re-issuing the prompt. -/
theorem hair_confirm_branch_books_unless_no (env : HairEnv)
    (store : String → Option HSess) (req : HairReq)
    (hf : req.is_final = true) (ht : ¬ hairText req = "")
    (hac : tOptBool ((store (hairCid req)).getD {}).awaiting_confirm = true) :
    (no_intent (hairText req) = false →
      (hairStep env store req).2.2.head?
        = some (HEvent.createBooking req.salon_id
            ((store (hairCid req)).getD {}).service_id
            ((store (hairCid req)).getD {}).time_id))
    ∧ (no_intent (hairText req) = true →
      ((hairStep env store req).1 (hairCid req)).map (fun s => s.awaiting_confirm)
        = some (some false)
      ∧ ∀ salon sv tv, HEvent.createBooking salon sv tv ∉ (hairStep env store req).2.2) := by
  constructor
  · intro hno
    unfold hairStep
    dsimp only
    rw [hf]
    rw [if_neg (by simp)]
    rw [if_neg ht]
    rw [if_pos (by simpa using hac)]
    unfold hairConfirmPhase
    rw [if_neg (by rw [hno]; simp)]
    exact do_booking_head env _ req.salon_id
  · intro hno
    unfold hairStep
    dsimp only
    rw [hf]
    rw [if_neg (by simp)]
    rw [if_neg ht]
    rw [if_pos (by simpa using hac)]
    unfold hairConfirmPhase
    rw [if_pos hno]
    dsimp only
    refine ⟨by rw [if_pos rfl]; rfl, ?_⟩
    intro salon sv tv
    simp

/-- Witness for the amended C6 at the concrete session. -/
theorem hair_confirm_branch_books_unless_no_witness :
    (hairStep hairEnvDemo hairStoreConfirm { text := "vet ej", conv_id := "c1" }).2.2.head?
      = some (HEvent.createBooking 97 (some 301) (some 4700001)) := by
  exact (hair_confirm_branch_books_unless_no hairEnvDemo hairStoreConfirm
    { text := "vet ej", conv_id := "c1" } rfl (by decide) (by decide)).1 (by decide)

/-- C8 counterexample: an empty-text turn does mutate the session store.
The dental route's `SESSION.setdefault` runs before the empty-text check,
so a fresh conversation id gains a full default session entry; the hair
route writes `salon_id` into the session before its own text check. -/
theorem empty_text_turn_mutates_store_cex :
    ((dentalTurn witEnvD (fun _ => none) { text := "", conv_id := "local" }).1 "local")
      = some dDefaultFull
    ∧ (((hairStep hairEnvDemo (fun _ => none) { text := "", conv_id := "c2" }).1 "c2").map
        (fun s => s.salon_id)) = some (some 97) := by
  refine ⟨by decide, by decide⟩

/-- C8 (amended): an empty-text turn is rejected immediately with a
structured error (HTTP 400 "No text" on the dental route, a fixed ask
prompt on the hair route) and invokes no collaborator, but the store is
touched first: dental `setdefault` materialises the default session for
the conversation id, and hair writes the request's `salon_id`. -/
theorem empty_text_rejected_after_store_touch :
    (∀ (env : DentalEnv) (store : String → Option DSess) (req : DReq),
      (⟨pyStripWs req.text.data⟩ : String) = "" →
      (dentalTurn env store req).2.1 = DOut.httpError 400 "No text"
      ∧ (dentalTurn env store req).2.2 = []
      ∧ (dentalTurn env store req).1
          = fun c => if c = req.conv_id
              then some ((store req.conv_id).getD dDefaultFull) else store c)
    ∧ (∀ (env : HairEnv) (store : String → Option HSess) (req : HairReq),
      req.is_final = true → hairText req = "" →
      (hairStep env store req).2.1
        = HOut.rep "Säg något så hjälper jag dig boka." "ask" true none
      ∧ (hairStep env store req).2.2 = []
      ∧ (hairStep env store req).1
          = fun c => if c = hairCid req
              then some ({(store (hairCid req)).getD {} with salon_id := some req.salon_id})
              else store c) := by
  constructor
  · intro env store req hempty
    unfold dentalTurn dentalTurnCore
    dsimp only
    rw [if_pos hempty]
    exact ⟨rfl, rfl, rfl⟩
  · intro env store req hf hempty
    unfold hairStep
    dsimp only
    rw [hf]
    rw [if_neg (by simp)]
    rw [if_pos hempty]
    exact ⟨rfl, rfl, rfl⟩

/-- Witness for the amended C8 at concrete empty-text requests. -/
theorem empty_text_rejected_after_store_touch_witness :
    (dentalTurn witEnvD (fun _ => none) { text := " ", conv_id := "local" }).2.1
      = DOut.httpError 400 "No text"
    ∧ (hairStep hairEnvDemo (fun _ => none) { text := "", conv_id := "c2" }).2.2 = [] :=
  ⟨((empty_text_rejected_after_store_touch.1 witEnvD (fun _ => none)
      { text := " ", conv_id := "local" }) (by decide)).1,
   ((empty_text_rejected_after_store_touch.2 hairEnvDemo (fun _ => none)
      { text := "", conv_id := "c2" }) rfl (by decide)).2.1⟩

/-- C9 counterexample: a dental turn with `is_final = false` still fills
the date slot from the text — non-final turns are processed in full, only
the reply's `end_turn` flag differs. -/
theorem nonfinal_dental_turn_mutates_cex :
    (((dentalTurn witEnvD (fun _ => none)
        { text := "boka 2025-09-01", conv_id := "local", is_final := false }).1 "local").map
      (fun s => s.slots.date)) = some (some "2025-09-01") := by
  decide

/-- C9 (amended): the hair route ignores non-final turns entirely
(unchanged store, empty reply, no collaborator calls), while the dental
route's store updates and collaborator calls are independent of
`is_final` — the flag only sets `end_turn` on the reply, so a non-final
dental turn has exactly the side effects of the final one. -/
theorem nonfinal_turn_side_effects :
    (∀ (env : HairEnv) (store : String → Option HSess) (req : HairReq),
      req.is_final = false →
      hairStep env store req = (store, HOut.plain "", []))
    ∧ (∀ (env : DentalEnv) (store : String → Option DSess) (t c : String) (b1 b2 : Bool),
      (dentalTurn env store ⟨t, c, b1⟩).1 = (dentalTurn env store ⟨t, c, b2⟩).1
      ∧ (dentalTurn env store ⟨t, c, b1⟩).2.2 = (dentalTurn env store ⟨t, c, b2⟩).2.2) := by
  constructor
  · intro env store req hf
    unfold hairStep
    dsimp only
    rw [hf]
    rw [if_pos (by simp)]
  · intro env store t c b1 b2
    exact ⟨rfl, rfl⟩

/-- Witness for the amended C9 at a concrete non-final hair request. -/
theorem nonfinal_turn_side_effects_witness :
    hairStep hairEnvDemo (fun _ => none)
      { text := "klipp mig", conv_id := "c3", is_final := false }
      = ((fun _ => none : String → Option HSess), HOut.plain "", []) :=
  nonfinal_turn_side_effects.1 hairEnvDemo (fun _ => none)
    { text := "klipp mig", conv_id := "c3", is_final := false } rfl
